import Mathlib

/-!
Verification of the extraction–identity–reconciliation engine of the
`commit` repository (LaTeX → Anki flashcard synchronisation).

The Python sources are shallowly embedded: text is `String` / `List Char`,
dictionaries are association lists, fallible code returns `Except`, and the
impure boundaries (file system, clock, network assistant) are explicit
parameters.  Every definition is translated from the corresponding Python
function; the file/line of the source is given in each doc comment.
-/

namespace Commit

/-! ## Python string primitives -/

/-- Characters treated as whitespace by Python `str.strip` (ASCII subset). -/
def pyWs (c : Char) : Bool :=
  c = ' ' || c = '\t' || c = '\n' || c = '\r' || c = '\x0b' || c = '\x0c'

/-- Python `str.strip()` with no argument: drop whitespace at both ends. -/
def pyStrip (s : List Char) : List Char :=
  ((s.dropWhile pyWs).reverse.dropWhile pyWs).reverse

/-- Python `str.lstrip()`. -/
def pyLstrip (s : List Char) : List Char := s.dropWhile pyWs

/-- Test whether `p` occurs at the very start of `s`. -/
def leadsWith : List Char → List Char → Bool
  | [], _ => true
  | _ :: _, [] => false
  | p :: ps, c :: cs => p = c && leadsWith ps cs

/-- Test whether `pat` occurs contiguously anywhere in the list
(Python `pat in s`). -/
def containsSeg (pat : List Char) : List Char → Bool
  | [] => leadsWith pat []
  | c :: cs => leadsWith pat (c :: cs) || containsSeg pat cs

/-- Decimal digit character. -/
def digitChar (n : Nat) : Char := Char.ofNat (48 + n)

/-- Decimal rendering of a natural number, fuel-based so that it reduces. -/
def natCharsAux : Nat → Nat → List Char
  | 0, _ => []
  | fuel+1, n =>
    if n < 10 then [digitChar n]
    else natCharsAux fuel (n / 10) ++ [digitChar (n % 10)]

/-- Python `str(n)` for a natural number (`fuel = n+1` always suffices). -/
def natChars (n : Nat) : List Char := natCharsAux (n+1) n

/-- Python `s.split('\n')`: always returns at least one (possibly empty) piece. -/
def splitNl : List Char → List (List Char)
  | [] => [[]]
  | c :: cs =>
    if c = '\n' then [] :: splitNl cs
    else
      match splitNl cs with
      | [] => [[c]]
      | l :: ls => (c :: l) :: ls

/-- Python `'\n'.join(lines)`. -/
def joinNl : List (List Char) → List Char
  | [] => []
  | [l] => l
  | l :: ls => l ++ '\n' :: joinNl ls

/-- One step of Python `s.replace(pat, repl)`: scan left to right, replace each
non-overlapping occurrence, never rescanning the replacement text.  `pat` is
non-empty at every call site (the callers pass placeholder strings). -/
def replaceAllFuel (pat repl : List Char) : Nat → List Char → List Char
  | 0, cs => cs
  | fuel+1, cs =>
    match cs with
    | [] => []
    | c :: rest =>
      if leadsWith pat cs then repl ++ replaceAllFuel pat repl fuel (cs.drop pat.length)
      else c :: replaceAllFuel pat repl fuel rest

/-- Python `s.replace(pat, repl)` for non-empty `pat`. -/
def pyReplace (s pat repl : List Char) : List Char := replaceAllFuel pat repl s.length s

/-! ## `renforce/hashing.py` — SHA-1 and GUID computation

`hashlib.sha1` is Python standard-library code; it is embedded here as the
actual SHA-1 algorithm (FIPS 180) over UTF-8 bytes, operating on `Nat` with
explicit reduction modulo `2^32`. -/

/-- UTF-8 encoding of one character (`str.encode("utf-8")`), as byte values. -/
def utf8Char (c : Char) : List Nat :=
  let n := c.toNat
  if n < 128 then [n]
  else if n < 2048 then [192 + n / 64, 128 + n % 64]
  else if n < 65536 then [224 + n / 4096, 128 + n / 64 % 64, 128 + n % 64]
  else [240 + n / 262144, 128 + n / 4096 % 64, 128 + n / 64 % 64, 128 + n % 64]

/-- UTF-8 byte sequence of a string. -/
def utf8Bytes (s : String) : List Nat := s.data.foldr (fun c acc => utf8Char c ++ acc) []

/-- Truncation to a 32-bit word. -/
def w32 (n : Nat) : Nat := n % 4294967296

/-- 32-bit rotate left by `k` (for `n < 2^32`, `0 < k < 32`). -/
def rotl (k n : Nat) : Nat := w32 (n * 2 ^ k) ||| n / 2 ^ (32 - k)

/-- Big-endian byte rendering of `n` in exactly `k` bytes. -/
def beBytes : Nat → Nat → List Nat
  | 0, _ => []
  | k+1, n => beBytes k (n / 256) ++ [n % 256]

/-- SHA-1 message padding: append `0x80`, zeros to 56 mod 64, then the
64-bit big-endian bit length. -/
def sha1Pad (msg : List Nat) : List Nat :=
  msg ++ 128 :: (List.replicate ((119 - msg.length % 64) % 64) 0 ++ beBytes 8 (8 * msg.length))

/-- Big-endian 32-bit word from the first four bytes. -/
def word32 : List Nat → Nat
  | b0 :: b1 :: b2 :: b3 :: _ => ((b0 * 256 + b1) * 256 + b2) * 256 + b3
  | _ => 0

/-- First `k` big-endian words of a byte list. -/
def chunkWords : Nat → List Nat → List Nat
  | 0, _ => []
  | k+1, bytes => word32 bytes :: chunkWords k (bytes.drop 4)

/-- SHA-1 round function. -/
def sha1F (i b c d : Nat) : Nat :=
  if i < 20 then (b &&& c) ||| ((b ^^^ 4294967295) &&& d)
  else if i < 40 then b ^^^ c ^^^ d
  else if i < 60 then (b &&& c) ||| (b &&& d) ||| (c &&& d)
  else b ^^^ c ^^^ d

/-- SHA-1 round constants. -/
def sha1K (i : Nat) : Nat :=
  if i < 20 then 1518500249
  else if i < 40 then 1859775393
  else if i < 60 then 2400959708
  else 3395469782

/-- Message-schedule expansion; `acc` holds the words produced so far, most
recent first, so `w[i-3]` is `acc[2]`, `w[i-8]` is `acc[7]`, and so on. -/
def expandRev : Nat → List Nat → List Nat
  | 0, acc => acc
  | k+1, acc =>
    expandRev k (rotl 1 (acc.getD 2 0 ^^^ acc.getD 7 0 ^^^ acc.getD 13 0 ^^^ acc.getD 15 0) :: acc)

/-- The 80 SHA-1 rounds over the expanded schedule. -/
def sha1Rounds : Nat → List Nat → Nat × Nat × Nat × Nat × Nat → Nat × Nat × Nat × Nat × Nat
  | _, [], st => st
  | i, wv :: ws, (a, b, c, d, e) =>
    sha1Rounds (i+1) ws (w32 (rotl 5 a + sha1F i b c d + e + sha1K i + wv), a, rotl 30 b, c, d)

/-- Process one 64-byte chunk. -/
def sha1Chunk (h : Nat × Nat × Nat × Nat × Nat) (chunk : List Nat) : Nat × Nat × Nat × Nat × Nat :=
  let ws := (expandRev 64 (chunkWords 16 chunk).reverse).reverse
  let r := sha1Rounds 0 ws (h.1, h.2.1, h.2.2.1, h.2.2.2.1, h.2.2.2.2)
  (w32 (h.1 + r.1), w32 (h.2.1 + r.2.1), w32 (h.2.2.1 + r.2.2.1),
    w32 (h.2.2.2.1 + r.2.2.2.1), w32 (h.2.2.2.2 + r.2.2.2.2))

/-- Fold over all 64-byte chunks (fuel-based; fuel bounds the chunk count). -/
def sha1Chunks : Nat → (Nat × Nat × Nat × Nat × Nat) → List Nat → Nat × Nat × Nat × Nat × Nat
  | 0, h, _ => h
  | _+1, h, [] => h
  | fuel+1, h, bytes => sha1Chunks fuel (sha1Chunk h (bytes.take 64)) (bytes.drop 64)

/-- Lowercase hexadecimal digit character. -/
def hexDigitChar (n : Nat) : Char :=
  if n < 10 then Char.ofNat (48 + n) else Char.ofNat (87 + n)

/-- Fixed-width (`k` digit) big-endian lowercase hexadecimal rendering. -/
def hexFixed : Nat → Nat → List Char
  | 0, _ => []
  | k+1, n => hexFixed k (n / 16) ++ [hexDigitChar (n % 16)]

/-- `hashlib.sha1(bytes).hexdigest()`: 40 lowercase hex characters. -/
def sha1Hex (msg : List Nat) : String :=
  let padded := sha1Pad msg
  let H := sha1Chunks (padded.length / 64 + 1)
    (1732584193, 4023233417, 2562383102, 271733878, 3285377520) padded
  String.mk (hexFixed 8 H.1 ++ hexFixed 8 H.2.1 ++ hexFixed 8 H.2.2.1 ++
    hexFixed 8 H.2.2.2.1 ++ hexFixed 8 H.2.2.2.2)

/-- `hashlib.sha1(s.encode("utf-8")).hexdigest()` as a function of the string. -/
def strDigest (s : String) : String := sha1Hex (utf8Bytes s)

/-- The delimiter-joined pre-image `f"{env_name}|{normalized_body}|{file_path}"`
of `compute_guid` (`renforce/hashing.py:33`). -/
def guid_preimage (env_name normalized_body file_path : String) : String :=
  env_name ++ "|" ++ normalized_body ++ "|" ++ file_path

/-- Embedding of `compute_guid` (`renforce/hashing.py:7-37`). -/
def compute_guid (env_name normalized_body file_path : String) : String :=
  strDigest (guid_preimage env_name normalized_body file_path)

/-- Embedding of `compute_content_hash` (`renforce/hashing.py:40-63`). -/
def compute_content_hash (normalized_body : String) : String := strDigest normalized_body

/-- Embedding of `short_hash` (`renforce/hashing.py:66-86`); the source's
default length is 12 and every caller uses it. -/
def short_hash (full_hash : String) (len : Nat) : String := ⟨full_hash.data.take len⟩

/-- Python `g.startswith(pre)`. -/
def pyStartsWith (g pre : String) : Bool := leadsWith pre.data g.data

/-- Embedding of `match_short_guid_to_full` (`renforce/hashing.py:89-116`):
a unique `startswith` match is returned, zero or several matches give `None`. -/
def match_short_guid_to_full (short_guid : String) (full_guids : List String) : Option String :=
  let ms := full_guids.filter (fun g => pyStartsWith g short_guid)
  if ms.length = 1 then ms.head? else none

/-- A collision of the string digest: two distinct pre-image strings with the
same digest. -/
def Sha1Collision (x y : String) : Prop := x ≠ y ∧ strDigest x = strDigest y

/-- Lowercase hexadecimal characters. -/
def isLowerHex (c : Char) : Bool := c.isDigit || ('a' ≤ c && c ≤ 'f')

/-! ## `renforce/tex_parser.py` — normalisation

`normalize_tex` (lines 128-176) protects math spans by substituting
placeholder strings, collapses whitespace, then substitutes the spans back.
Each `re.sub` with a constant replacement-or-save callback is embedded as a
left-to-right scan with the exact non-greedy semantics of the pattern. -/

/-- The placeholder text `f"__MATH_BLOCK_{i}__"`. -/
def placeholder (i : Nat) : List Char :=
  "__MATH_BLOCK_".data ++ natChars i ++ "__".data

/-- Earliest adjacent occurrence of the two-character sequence `a b`;
returns the part before it and the part after it. -/
def findSeg2 (a b : Char) : List Char → Option (List Char × List Char)
  | [] => none
  | [_] => none
  | c :: d :: rest =>
    if c = a && d = b then some ([], rest)
    else (findSeg2 a b (d :: rest)).map (fun pr => (c :: pr.1, pr.2))

/-- Scan for `re.sub(o₁o₂.*?c₁c₂, save_display_math, s, DOTALL)`: used with
`\[.*?\]` and `$$.*?$$`.  On a match the span is appended to the accumulator
and the placeholder for its index replaces it; otherwise the scan advances one
character, exactly as the regex engine does. -/
def protectTwoChar (o1 o2 c1 c2 : Char) : Nat → List Char → List (List Char) →
    List Char × List (List Char)
  | 0, cs, acc => (cs, acc)
  | _+1, [], acc => ([], acc)
  | _+1, [c], acc => ([c], acc)
  | fuel+1, a :: b :: rest, acc =>
    if a = o1 && b = o2 then
      match findSeg2 c1 c2 rest with
      | some (mid, after) =>
        let block := a :: b :: (mid ++ [c1, c2])
        let out := protectTwoChar o1 o2 c1 c2 fuel after (acc ++ [block])
        (placeholder acc.length ++ out.1, out.2)
      | none =>
        let out := protectTwoChar o1 o2 c1 c2 fuel (b :: rest) acc
        (a :: out.1, out.2)
    else
      let out := protectTwoChar o1 o2 c1 c2 fuel (b :: rest) acc
      (a :: out.1, out.2)

/-- Earliest `'$'`; returns the part before it and the part after it. -/
def findDollarClose : List Char → Option (List Char × List Char)
  | [] => none
  | c :: rest =>
    if c = '$' then some ([], rest)
    else (findDollarClose rest).map (fun pr => (c :: pr.1, pr.2))

/-- Scan for `re.sub(r"\$[^\$]+?\$", save_display_math, s)`: an opening `$`
matches up to the next `$` provided at least one non-`$` character lies
between; otherwise the scan advances one character. -/
def protectDollar : Nat → List Char → List (List Char) → List Char × List (List Char)
  | 0, cs, acc => (cs, acc)
  | _+1, [], acc => ([], acc)
  | fuel+1, c :: rest, acc =>
    if c = '$' then
      match findDollarClose rest with
      | some ([], _) =>
        let out := protectDollar fuel rest acc
        (c :: out.1, out.2)
      | some (mid, after) =>
        let block := '$' :: (mid ++ ['$'])
        let out := protectDollar fuel after (acc ++ [block])
        (placeholder acc.length ++ out.1, out.2)
      | none =>
        let out := protectDollar fuel rest acc
        (c :: out.1, out.2)
    else
      let out := protectDollar fuel rest acc
      (c :: out.1, out.2)

/-- Space or tab, the class `[ \t]`. -/
def isSpaceTab (c : Char) : Bool := c = ' ' || c = '\t'

/-- `re.sub(r"[ \t]+", " ", s)`: each maximal run of spaces/tabs becomes one
space. -/
def collapseSpaces : List Char → List Char
  | [] => []
  | [c] => if isSpaceTab c then [' '] else [c]
  | a :: b :: rest =>
    if isSpaceTab a && isSpaceTab b then collapseSpaces (b :: rest)
    else (if isSpaceTab a then ' ' else a) :: collapseSpaces (b :: rest)

/-- `re.sub(r"\n\n+", "\n\n", s)`: each maximal run of three or more newlines
becomes exactly two. -/
def collapseNewlines : List Char → List Char
  | a :: b :: c :: rest =>
    if a = '\n' && b = '\n' && c = '\n' then collapseNewlines (b :: c :: rest)
    else a :: collapseNewlines (b :: c :: rest)
  | cs => cs

/-- The restore loop `for i, math_block in enumerate(math_blocks):
content = content.replace(f"__MATH_BLOCK_{i}__", math_block)`. -/
def restoreBlocks : Nat → List (List Char) → List Char → List Char
  | _, [], cs => cs
  | i, b :: bs, cs => restoreBlocks (i+1) bs (pyReplace cs (placeholder i) b)

/-- Steps 1-2 of `normalize_tex`: strip, then protect `\[..\]`, `$$..$$` and
`$..$` spans in that order, sharing one `math_blocks` accumulator. -/
def normalizeScan (content : String) : List Char × List (List Char) :=
  let c0 := pyStrip content.data
  let p1 := protectTwoChar '\\' '[' '\\' ']' c0.length c0 []
  let p2 := protectTwoChar '$' '$' '$' '$' p1.1.length p1.1 p1.2
  protectDollar p2.1.length p2.1 p2.2

/-- The `math_blocks` list accumulated by `normalize_tex` on this input. -/
def mathBlocksOf (content : String) : List (List Char) := (normalizeScan content).2

/-- Embedding of `normalize_tex` (`renforce/tex_parser.py:128-176`). -/
def normalize_tex (content : String) : String :=
  let p := normalizeScan content
  ⟨pyStrip (restoreBlocks 0 p.2 (collapseNewlines (collapseSpaces p.1)))⟩

/-! ## `renforce/tex_parser.py` — extraction

`extract_environments` (lines 21-125) blanks commented lines, then scans for
`\begin{env}(?:\[title\])?body\end{env}` with non-greedy title and body, and
finally looks backward up to 20 lines for a persisted-GUID comment. -/

/-- One line of the comment-blanking pass: a line whose first non-blank
character is `%` is replaced by the empty line. -/
def blankLine (l : List Char) : List Char :=
  if leadsWith ['%'] (pyLstrip l) then [] else l

/-- The comment-blanking pass (`tex_parser.py:51-63`). -/
def blankComments (s : List Char) : List Char :=
  joinNl ((splitNl s).map blankLine)

/-- Earliest occurrence of the token `tok`; returns the part before it and the
part after it. -/
def splitOnTok (tok : List Char) : List Char → Option (List Char × List Char)
  | [] => if leadsWith tok [] then some ([], []) else none
  | c :: rest =>
    if leadsWith tok (c :: rest) then some ([], (c :: rest).drop tok.length)
    else (splitOnTok tok rest).map (fun pr => (c :: pr.1, pr.2))

/-- `\begin{`. -/
def beginTok : List Char := "\\begin\x7b".data

/-- `\end{name}`. -/
def endTokOf (name : List Char) : List Char := "\\end\x7b".data ++ name ++ ['\x7d']

/-- An environment match: name, optional title, body, full matched text and
the remaining input after the match. -/
structure EnvM where
  env : List Char
  title : Option (List Char)
  body : List Char
  raw : List Char
  after : List Char
deriving DecidableEq, Repr

/-- Attempt the environment pattern at the current position.  The alternation
over (escaped, hence brace-free) environment names is deterministic: the name
must be reproduced up to the closing brace.  The optional title group is tried
first; it succeeds iff a `]` exists and some `\end{name}` follows the earliest
`]`, which is exactly when the backtracking engine keeps it. -/
def envMatchAt (names : List (List Char)) (cs : List Char) : Option EnvM :=
  if leadsWith beginTok cs then
    match names.find? (fun n => leadsWith (n ++ ['\x7d']) (cs.drop 7)) with
    | none => none
    | some n =>
      let rest1 := (cs.drop 7).drop (n.length + 1)
      let endTok := endTokOf n
      let titled : Option EnvM :=
        match rest1 with
        | '[' :: rest1a =>
          match splitOnTok [']'] rest1a with
          | none => none
          | some (tit, rest2) =>
            match splitOnTok endTok rest2 with
            | none => none
            | some (body, after) =>
              some { env := n, title := some tit, body := body,
                     raw := cs.take (7 + n.length + 1 + 1 + tit.length + 1 +
                       body.length + endTok.length),
                     after := after }
        | _ => none
      match titled with
      | some m => some m
      | none =>
        match splitOnTok endTok rest1 with
        | none => none
        | some (body, after) =>
          some { env := n, title := none, body := body,
                 raw := cs.take (7 + n.length + 1 + body.length + endTok.length),
                 after := after }
  else none

/-- Number of newline characters. -/
def countNl (cs : List Char) : Nat := cs.count '\n'

/-- One match record of the `finditer` loop, with the newline count before the
match start (from which the reported line numbers are computed). -/
structure EnvHit where
  env : List Char
  title : Option (List Char)
  body : List Char
  raw : List Char
  nlBefore : Nat
deriving DecidableEq, Repr

/-- The `pattern.finditer` loop: leftmost matches, scanning resumes after each
match, newline counts tracked positionally. -/
def scanEnvs (names : List (List Char)) : Nat → Nat → List Char → List EnvHit
  | 0, _, _ => []
  | _+1, _, [] => []
  | fuel+1, nl, c :: rest =>
    match envMatchAt names (c :: rest) with
    | some m =>
      { env := m.env, title := m.title, body := m.body, raw := m.raw, nlBefore := nl } ::
        scanEnvs names fuel (nl + countNl m.raw) m.after
    | none => scanEnvs names fuel (nl + if c = '\n' then 1 else 0) rest

/-- Case-insensitive hexadecimal digit, the class `[a-f0-9]` under
`re.IGNORECASE`. -/
def isHexCi (c : Char) : Bool :=
  c.isDigit || ('a' ≤ c && c ≤ 'f') || ('A' ≤ c && c ≤ 'F')

/-- Case-insensitive literal comparison at the start of the input. -/
def leadsWithCi : List Char → List Char → Bool
  | [], _ => true
  | _ :: _, [] => false
  | p :: ps, c :: cs => p.toLower = c.toLower && leadsWithCi ps cs

/-- Attempt `%\s*(?:anki-tex-)?guid:\s*([a-f0-9]{8,40})` (IGNORECASE) at the
current position.  Returns (group-1 text, captured hex, rest after match).
The optional branch is deterministic (`a` vs `g` first character), `\s*` is
maximal (the following characters are never whitespace), and the greedy
`{8,40}` takes the hex run capped at 40. -/
def matchGuidAt (cs : List Char) : Option (List Char × List Char × List Char) :=
  match cs with
  | '%' :: r0 =>
    let sp1 := r0.takeWhile pyWs
    let r1 := r0.drop sp1.length
    let tag := if leadsWithCi "anki-tex-".data r1 then "anki-tex-".data.length else 0
    let r2 := r1.drop tag
    if leadsWithCi "guid:".data r2 then
      let r3 := r2.drop 5
      let sp2 := r3.takeWhile pyWs
      let r4 := r3.drop sp2.length
      let hex := r4.takeWhile isHexCi
      if 8 ≤ hex.length then
        some ('%' :: sp1 ++ r1.take tag ++ r2.take 5 ++ sp2, hex.take 40,
          r4.drop (hex.take 40).length)
      else none
    else none
  | _ => none

/-- `guid_pattern.search(line)` with the captured hex of the leftmost match
(`re.search` semantics). -/
def guidSearchCapture : List Char → Option (List Char)
  | [] => none
  | c :: rest =>
    match matchGuidAt (c :: rest) with
    | some (_, cap, _) => some cap
    | none => guidSearchCapture rest

/-- Whether the GUID-comment pattern occurs in the line. -/
def guidSearchB (cs : List Char) : Bool := (guidSearchCapture cs).isSome

/-- `for line in reversed(context_lines): ... break`: the capture of the last
line containing the pattern. -/
def findGuidBack : List (List Char) → Option (List Char)
  | [] => none
  | l :: ls =>
    match findGuidBack ls with
    | some g => some g
    | none => guidSearchCapture l

/-- Embedding of `ExtractedEnvironment` (`tex_parser.py:8-18`). -/
structure ExtractedEnvironment where
  env : List Char
  title : Option (List Char)
  body : List Char
  start_line : Nat
  end_line : Nat
  raw_text : List Char
  guid : Option (List Char)
deriving DecidableEq, Repr

/-- The part of `extract_environments` operating on the already-blanked
content: regex scan, line numbers from newline counting, and the ≤20-line
backward GUID search over the blanked content's lines. -/
def extractFromCleaned (cleaned : List Char) (names : List (List Char)) :
    List ExtractedEnvironment :=
  let lines := splitNl cleaned
  (scanEnvs names cleaned.length 0 cleaned).map (fun m =>
    let startLine := m.nlBefore + 1
    { env := m.env, title := m.title, body := m.body,
      start_line := startLine,
      end_line := m.nlBefore + countNl m.raw + 1,
      raw_text := m.raw,
      guid := findGuidBack ((lines.take startLine).drop (startLine - 21)) })

/-- Embedding of `extract_environments` (`tex_parser.py:21-125`). -/
def extract_environments (file_content : List Char) (env_names : List (List Char)) :
    List ExtractedEnvironment :=
  if env_names = [] then []
  else extractFromCleaned (blankComments file_content) env_names

/-! ## `renforce/tex_parser.py` — marker injection

`inject_guid_comment` (lines 273-346).  The file is modelled as its list of
lines with the trailing newline of each line stripped, so the
`rstrip('\n')` adjustments of the source are identity here. -/

/-- Index (within the context window) of the line found by the backward scan
`for i in range(len(context_lines)-1, -1, -1)`: the last line matching the
GUID pattern. -/
def findMarkerIdxBack : List (List Char) → Option Nat
  | [] => none
  | l :: ls =>
    match findMarkerIdxBack ls with
    | some i => some (i + 1)
    | none => if guidSearchB l then some 0 else none

/-- Octal-digit test of the CPython replacement-template reader. -/
def isOctalDigit (c : Char) : Bool := decide (48 ≤ c.toNat) && decide (c.toNat ≤ 55)

/-- A parsed replacement template of the shape backslash-1 followed by
literal text, as the CPython template reader sees the f-string used at
`tex_parser.py:329`. -/
inductive SubTemplate where
  | group1Then : List Char → SubTemplate
  | octalThen : Char → List Char → SubTemplate
deriving DecidableEq, Repr

/-- How CPython reads the replacement template `\1` + `short`
(`re._parser.parse_template`): after the backslash and the digit `1`, if the
next character is not a digit the template is a group-1 reference followed
by the literal `short`; if the next two characters are both octal digits,
the three digits form one octal character escape `chr(0o1ab)` and the group
reference is gone; any other digit continuation reads a two-digit group
number `1x` (10 to 19), which the two-group `guid_comment_pattern` does not
have, so `re.sub` reports an invalid group reference.  Short GUIDs are hex
strings, so the outcome depends on their leading characters. -/
def parseSubTemplate (short : List Char) : Except String SubTemplate :=
  match short with
  | [] => .ok (.group1Then [])
  | s0 :: rest =>
    if s0.isDigit then
      match rest with
      | s1 :: rest2 =>
        if isOctalDigit s0 && isOctalDigit s1 then
          .ok (.octalThen (Char.ofNat (64 + 8 * (s0.toNat - 48) + (s1.toNat - 48))) rest2)
        else .error "re.error: invalid group reference"
      | [] => .error "re.error: invalid group reference"
    else .ok (.group1Then (s0 :: rest))

/-- The left-to-right scan of `Pattern.sub`, applying a parsed template at
every match of `guid_comment_pattern`. -/
def applyGuidSub (t : SubTemplate) : Nat → List Char → List Char
  | 0, cs => cs
  | _+1, [] => []
  | fuel+1, c :: rest =>
    match matchGuidAt (c :: rest) with
    | some (g1, _, after) =>
      (match t with
       | .group1Then lit => g1 ++ lit
       | .octalThen ch lit => ch :: lit) ++ applyGuidSub t fuel after
    | none => c :: applyGuidSub t fuel rest

/-- `guid_comment_pattern.sub(rf'\1{short_guid}', line)` (`tex_parser.py:329`):
the template is compiled before any replacement is attempted, so an invalid
group reference raises `re.error` even before the (here guaranteed) match is
rewritten. -/
def guidSubLine (short : List Char) (fuel : Nat) (line : List Char) :
    Except String (List Char) :=
  match parseSubTemplate short with
  | .error e => .error e
  | .ok t => .ok (applyGuidSub t fuel line)

/-- `lines.insert(i, x)`. -/
def insertAt (l : List (List Char)) (i : Nat) (x : List Char) : List (List Char) :=
  l.take i ++ x :: l.drop i

/-- The marker comment `f"% anki-tex-guid: {short_guid}"`. -/
def markerComment (short : List Char) : List Char := "% anki-tex-guid: ".data ++ short

/-- Result of `inject_guid_comment`: the file's lines and the returned flag. -/
structure InjectResult where
  lines : List (List Char)
  modified : Bool
deriving DecidableEq, Repr

/-- Embedding of `inject_guid_comment` (`tex_parser.py:273-346`); the
filesystem read/write is replaced by the explicit line list, and I/O, range
and regex errors are `Except.error`.  The `lines` of the result are the
content of the file after the call: the update path returns at line 334,
before the write-back at lines 342-344, so its in-memory assignment to
`lines[actual_idx]` is discarded and the file keeps its previous content on
that path; only the insert path reaches the write.  `modified` is the
boolean the function returns. -/
def inject_guid_comment (lines : List (List Char)) (line_number : Nat)
    (full_guid : List Char) : Except String InjectResult :=
  let short := full_guid.take 12
  if line_number < 1 || lines.length < line_number then
    .error "ValueError: line number out of range"
  else
    let target := line_number - 1
    let contextStart := target - 20
    let ctx := (lines.take target).drop contextStart
    match findMarkerIdxBack ctx with
    | some i =>
      let actual := contextStart + i
      let line := lines.getD actual []
      match guidSubLine short line.length line with
      | .error e => .error e
      | .ok newLine =>
        if line ≠ newLine then .ok ⟨lines, true⟩
        else .ok ⟨lines, false⟩
    | none => .ok ⟨insertAt lines target (markerComment short), true⟩

/-- Number of lines containing a GUID marker comment. -/
def countMarkerLines (lines : List (List Char)) : Nat :=
  (lines.filter guidSearchB).length

/-! ## `commit/state.py` — the Ledger

Two views are embedded.  `stateLoad` models `StateManager._load` on the raw
JSON document (the corrupt-file tolerance claim), with Python's dynamic `in` /
item-assignment semantics made explicit.  The typed `CommitState` models the
well-formed in-memory state on which `is_note_seen`, `has_note_changed` and
`record_note` operate. -/

/-- A JSON value as produced by `json.load`. -/
inductive JValue where
  | null : JValue
  | bool : Bool → JValue
  | num : Int → JValue
  | str : String → JValue
  | arr : List JValue → JValue
  | obj : List (String × JValue) → JValue

/-- The only uncaught exception relevant to `_load`. -/
inductive PyErr where
  | typeError : PyErr
deriving DecidableEq, Repr

/-- Python `key in v` for a string key: membership for dicts, element
equality for lists, substring test for strings, `TypeError` otherwise. -/
def pyIn (key : String) : JValue → Except PyErr Bool
  | .obj kvs => .ok (kvs.any (fun p => p.1 = key))
  | .arr l => .ok (l.any (fun v => match v with | .str s => s = key | _ => false))
  | .str s => .ok (containsSeg key.data s.data)
  | _ => .error .typeError

/-- Python `v[key] = x` for a string key: dicts update or append, everything
else raises `TypeError`. -/
def pySetItem (key : String) (x : JValue) : JValue → Except PyErr JValue
  | .obj kvs =>
    if kvs.any (fun p => p.1 = key) then
      .ok (.obj (kvs.map (fun p => if p.1 = key then (p.1, x) else p)))
    else .ok (.obj (kvs ++ [(key, x)]))
  | _ => .error .typeError

/-- The default state structure (`state.py:56-63`). -/
def defaultState : JValue :=
  .obj [("last_processed_sha", .null), ("note_hashes", .obj []),
    ("llm_generations", .obj []), ("version", .str "0.2.0")]

/-- Outcome of opening and JSON-decoding the state file: the file may be
missing, unreadable (`IOError`), undecodable (`json.JSONDecodeError`), or
parsed into a JSON value. -/
inductive ReadOutcome where
  | missing : ReadOutcome
  | ioError : ReadOutcome
  | decodeError : ReadOutcome
  | parsed : JValue → ReadOutcome

/-- Embedding of `StateManager._load` (`state.py:35-54`).  A missing file and
the two caught exception classes give the default structure; a parsed value is
given the three required keys if absent, with the dynamic semantics of `in`
and item assignment (an uncaught `TypeError` escapes as `.error`). -/
def stateLoad : ReadOutcome → Except PyErr JValue
  | .missing => .ok defaultState
  | .ioError => .ok defaultState
  | .decodeError => .ok defaultState
  | .parsed v => do
    let b1 ← pyIn "note_hashes" v
    let v ← if b1 then pure v else pySetItem "note_hashes" (.obj []) v
    let b2 ← pyIn "last_processed_sha" v
    let v ← if b2 then pure v else pySetItem "last_processed_sha" .null v
    let b3 ← pyIn "llm_generations" v
    let v ← if b3 then pure v else pySetItem "llm_generations" (.obj []) v
    pure v

/-- One required-key fill step of `_load` on a JSON object: append `(key, d)`
when `key` is absent (specification of the `if key not in state` blocks). -/
def stage (key : String) (d : JValue) (kvs : List (String × JValue)) :
    List (String × JValue) :=
  if kvs.any (fun p => p.1 = key) then kvs else kvs ++ [(key, d)]

/-- First value bound to a key in an association list (Python dict access). -/
def lookupKV {β : Type} (k : String) : List (String × β) → Option β
  | [] => none
  | p :: ps => if p.1 = k then some p.2 else lookupKV k ps

/-- One entry of `note_hashes` (`state.py:60`, `state.py:129-145`). -/
structure NoteEntry where
  anki_note_id : Option Int
  deck : String
  content_hash : String
  created_at : String
  updated_at : String
deriving DecidableEq, Repr

/-- The typed in-memory state of `StateManager`: the cursor, the ledger map,
and the audit map (entries of the audit map left as raw JSON). -/
structure CommitState where
  last_processed_sha : Option String
  note_hashes : List (String × NoteEntry)
  llm_generations : List (String × JValue)
deriving Inhabited

/-- Embedding of `StateManager.is_note_seen` (`state.py:90-92`). -/
def is_note_seen (st : CommitState) (guid : String) : Bool :=
  (lookupKV guid st.note_hashes).isSome

/-- Embedding of `StateManager.has_note_changed` (`state.py:94-109`): false
for an unseen GUID, otherwise whether the stored digest differs. -/
def has_note_changed (st : CommitState) (guid content_hash : String) : Bool :=
  match lookupKV guid st.note_hashes with
  | none => false
  | some e => e.content_hash != content_hash

/-- Embedding of `StateManager.record_note` (`state.py:111-145`); `now` is
the `datetime.now().isoformat()` timestamp, passed explicitly. -/
def record_note (st : CommitState) (guid : String) (anki_note_id : Option Int)
    (deck content_hash now : String) : CommitState :=
  if (lookupKV guid st.note_hashes).isSome then
    { st with note_hashes := st.note_hashes.map (fun p =>
        if p.1 = guid then
          (p.1, { p.2 with
                  anki_note_id := anki_note_id
                  deck := deck
                  content_hash := content_hash
                  updated_at := now })
        else p) }
  else
    { st with note_hashes :=
        st.note_hashes ++ [(guid, ⟨anki_note_id, deck, content_hash, now, now⟩)] }

/-! ## `commit/note_models.py` — blocks and the basic note mapper -/

/-- Embedding of `ExtractedBlock` (`note_models.py:12-26`). -/
structure ExtractedBlock where
  env : String
  title : Option String
  body : String
  normalized_body : String
  file_path : String
  line_number : Nat
  guid : String
  content_hash : String
  raw_text : String
  neighbor_context : Option String
deriving DecidableEq, Repr

/-- Python truthiness of an optional string (`None` and `""` are falsy). -/
def pyTruthy : Option String → Bool
  | none => false
  | some s => !s.isEmpty

/-- The GUID chosen by `ExtractedBlock.from_environment`
(`note_models.py:43-49`): the persisted GUID from the LaTeX comment when
present (possibly a short form), otherwise `compute_guid`. -/
def from_environment_guid (envGuid : Option String)
    (env_name normalized file_path : String) : String :=
  if pyTruthy envGuid then envGuid.getD "" else compute_guid env_name normalized file_path

/-- Embedding of `ExtractedBlock.from_environment` (`note_models.py:27-62`). -/
def ExtractedBlock.from_environment (e : ExtractedEnvironment) (file_path : String) :
    ExtractedBlock :=
  let normalized := normalize_tex ⟨e.body⟩
  { env := ⟨e.env⟩, title := e.title.map String.mk, body := ⟨e.body⟩,
    normalized_body := normalized, file_path := file_path,
    line_number := e.start_line,
    guid := from_environment_guid (e.guid.map String.mk) ⟨e.env⟩ normalized file_path,
    content_hash := compute_content_hash normalized,
    raw_text := ⟨e.raw_text⟩, neighbor_context := none }

/-- Python `str.title()` for ASCII text: first letter of each run of letters
uppercased, the rest lowercased. -/
def pyTitleAux : Bool → List Char → List Char
  | _, [] => []
  | prevAlpha, c :: rest =>
    (if c.isAlpha then (if prevAlpha then c.toLower else c.toUpper) else c) ::
      pyTitleAux c.isAlpha rest

/-- Python `str.title()`. -/
def pyTitle (s : String) : String := ⟨pyTitleAux false s.data⟩

/-- `re.sub(r"\s+", " ", s)`: every maximal whitespace run becomes one
space. -/
def collapseWsAll : List Char → List Char
  | [] => []
  | [c] => if pyWs c then [' '] else [c]
  | a :: b :: rest =>
    if pyWs a && pyWs b then collapseWsAll (b :: rest)
    else (if pyWs a then ' ' else a) :: collapseWsAll (b :: rest)

/-- Attempt `cmd⟨letters⟩{[^}]+}` at the current position, where `letters`
is the greedy `[a-z]*` run (used by the `\cite[a-z]*` pattern; pass
`allowLetters := false` for `\label`/`\ref`).  Returns the rest after the
match. -/
def matchCmdBraceRest (cmd : List Char) (allowLetters : Bool) (cs : List Char) :
    Option (List Char) :=
  if leadsWith cmd cs then
    let r := cs.drop cmd.length
    let letters := if allowLetters then r.takeWhile (fun c => 'a' ≤ c && c ≤ 'z') else []
    let r2 := r.drop letters.length
    match r2 with
    | '\x7b' :: r3 =>
      let inner := r3.takeWhile (fun c => c ≠ '\x7d')
      if 1 ≤ inner.length && (r3.drop inner.length).head? = some '\x7d' then
        some (r3.drop (inner.length + 1))
      else none
    | _ => none
  else none

/-- `re.sub` of a command-with-braces pattern by a constant replacement. -/
def subCmdBrace (cmd : List Char) (allowLetters : Bool) (repl : List Char) :
    Nat → List Char → List Char
  | 0, cs => cs
  | _+1, [] => []
  | fuel+1, c :: rest =>
    match matchCmdBraceRest cmd allowLetters (c :: rest) with
    | some after => repl ++ subCmdBrace cmd allowLetters repl fuel after
    | none => c :: subCmdBrace cmd allowLetters repl fuel rest

/-- Python `s.rsplit(" ", 1)[0]`: the part before the last space (the whole
string when it has no space). -/
def beforeLastSpace (cs : List Char) : List Char :=
  let r := (cs.reverse).dropWhile (fun c => c ≠ ' ')
  if r = [] then cs else (r.drop 1).reverse

/-- Embedding of `get_first_sentence` (`tex_parser.py:223-270`). -/
def get_first_sentence (text : String) (max_length : Nat) : String :=
  let t0 := collapseWsAll (pyStrip text.data)
  let t1 := subCmdBrace "\\label".data false [] t0.length t0
  let t2 := subCmdBrace "\\cite".data true "[citation]".data t1.length t1
  let t3 := subCmdBrace "\\ref".data false "[ref]".data t2.length t2
  let t4 := collapseWsAll (pyStrip t3)
  let run := t4.takeWhile (fun c => c ≠ '.' && c ≠ '!' && c ≠ '?')
  let rest := t4.drop run.length
  let fromSentence : Option (List Char) :=
    match rest with
    | t :: rest2 =>
      if 1 ≤ run.length && (rest2 = [] || pyWs (rest2.headD ' ')) then
        let sentence := pyStrip (run ++ [t])
        if sentence.length ≤ max_length then some sentence else none
      else none
    | [] => none
  match fromSentence with
  | some s => ⟨s⟩
  | none =>
    if t4.length ≤ max_length then ⟨t4⟩
    else ⟨beforeLastSpace (t4.take max_length) ++ "...".data⟩

/-- Embedding of `AnkiNote` (`note_models.py:65-73`); the `fields` dict is
represented by its two keys `Front` and `Back`. -/
structure AnkiNote where
  guid : String
  deck_name : String
  model_name : String
  front : String
  back : String
  tags : List String
  content_hash : String
deriving DecidableEq, Repr

/-- The standard `Source: ...` footer used by all four formatters. -/
def sourceDiv (file_path : String) (line_number : Nat) : String :=
  "<div style=\x27margin-top: 1em; font-size: 0.9em; color: #666;\x27>Source: <code>"
    ++ file_path ++ ":" ++ ⟨natChars line_number⟩ ++ "</code></div>"

/-- Embedding of `NoteMapper._format_definition` (`note_models.py:166-186`). -/
def formatDefinition (block : ExtractedBlock) : String × String :=
  let env_title := pyTitle block.env
  let front :=
    if pyTruthy block.title then env_title ++ ": " ++ block.title.getD ""
    else env_title ++ ": " ++ get_first_sentence block.body 80
  let back := "<div class=\"latex-content\">\n" ++ block.body ++ "\n</div>\n"
    ++ sourceDiv block.file_path block.line_number
  (front, back)

/-- Embedding of `NoteMapper._format_theorem` (`note_models.py:188-216`). -/
def formatTheorem (block : ExtractedBlock) : String × String :=
  let env_title := pyTitle block.env
  let front :=
    if pyTruthy block.title then env_title ++ ": " ++ block.title.getD ""
    else env_title ++ ": " ++ get_first_sentence block.body 100
  let back := "<div class=\"latex-content\">\n<strong>" ++ env_title
    ++ (if pyTruthy block.title then " (" ++ block.title.getD "" ++ ")" else "")
    ++ ":</strong>\n<div style=\"margin-top: 0.5em;\">\n" ++ block.body
    ++ "\n</div>\n</div>\n" ++ sourceDiv block.file_path block.line_number
  (front, back)

/-- Embedding of `NoteMapper._format_example` (`note_models.py:218-250`). -/
def formatExample (block : ExtractedBlock) : String × String :=
  let front0 :=
    if pyTruthy block.title then
      let base := "<strong>Example: " ++ block.title.getD "" ++ "</strong>"
      let preview := get_first_sentence block.body 150
      if !preview.isEmpty then
        base ++ "<div style=\x27margin-top: 0.5em;\x27>" ++ preview ++ "</div>"
      else base
    else
      let preview := get_first_sentence block.body 200
      if !preview.isEmpty then
        "<strong>Example:</strong><div style=\x27margin-top: 0.5em;\x27>" ++ preview ++ "</div>"
      else "Example from " ++ block.file_path ++ ":" ++ ⟨natChars block.line_number⟩
  let front := front0 ++
    "<div style=\x27margin-top: 1em; color: #666; font-size: 0.9em;\x27>What does this example demonstrate?</div>"
  let back := "<div class=\"latex-content\">\n<strong>Example"
    ++ (if pyTruthy block.title then ": " ++ block.title.getD "" else "")
    ++ ":</strong>\n<div style=\"margin-top: 0.5em;\">\n" ++ block.body
    ++ "\n</div>\n</div>\n" ++ sourceDiv block.file_path block.line_number
  (front, back)

/-- Embedding of `NoteMapper._format_generic` (`note_models.py:252-271`). -/
def formatGeneric (block : ExtractedBlock) : String × String :=
  let env_title := pyTitle block.env
  let front :=
    if pyTruthy block.title then env_title ++ ": " ++ block.title.getD ""
    else env_title ++ ": " ++ get_first_sentence block.body 80
  let back := "<div class=\"latex-content\">\n" ++ block.body ++ "\n</div>\n"
    ++ sourceDiv block.file_path block.line_number
  (front, back)

/-- Replace `/`, `\` and `.` by `_` (tag sanitisation). -/
def sanitizePathTag (s : String) : String :=
  ⟨s.data.map (fun c => if c = '/' || c = '\\' || c = '.' then '_' else c)⟩

/-- Embedding of `NoteMapper` construction state (`note_models.py:96-117`). -/
structure NoteMapper where
  course_name : String
  commit_sha : String
deriving DecidableEq, Repr

/-- Embedding of `NoteMapper._build_tags` (`note_models.py:273-289`). -/
def buildTags (m : NoteMapper) (block : ExtractedBlock) : List String :=
  ["auto", "from-tex", "course:" ++ m.course_name,
   "commit:" ++ ⟨m.commit_sha.data.take 8⟩, "env:" ++ block.env,
   "file:" ++ sanitizePathTag block.file_path,
   "guid:" ++ ⟨block.guid.data.take 12⟩]

/-- Python `s.lower()`. -/
def pyLower (s : String) : String := ⟨s.data.map Char.toLower⟩

/-- Embedding of `NoteMapper.map_block` (`note_models.py:119-164`),
including the kind dispatch and the empty-field fallbacks. -/
def NoteMapper.map_block (m : NoteMapper) (block : ExtractedBlock)
    (deck_name : String) : AnkiNote :=
  let env_lower := pyLower block.env
  let fb :=
    if env_lower = "definition" || env_lower = "remark" then formatDefinition block
    else if env_lower = "theorem" || env_lower = "proposition" || env_lower = "lemma"
      || env_lower = "corollary" then formatTheorem block
    else if env_lower = "example" then formatExample block
    else formatGeneric block
  let front :=
    if pyStrip fb.1.data = [] then "[Empty front - env: " ++ block.env ++ "]" else fb.1
  let back :=
    if pyStrip fb.2.data = [] then
      "[Empty back - check source at " ++ block.file_path ++ ":"
        ++ ⟨natChars block.line_number⟩ ++ "]"
    else fb.2
  { guid := block.guid, deck_name := deck_name, model_name := "Basic",
    front := front, back := back, tags := buildTags m block,
    content_hash := block.content_hash }

/-! ## `commit/processor.py` — reconciliation decisions -/

/-- The per-block (non-assisted) classification of `process_repository`
(`processor.py:326-337`): the action string chosen for one block. -/
def basicAction (st : CommitState) (guid content_hash : String) : String :=
  if is_note_seen st guid then
    if has_note_changed st guid content_hash then "update" else "skip"
  else "create"

/-- The attribute access `state.state` at `processor.py:211`: `StateManager`
(`state.py:30-33`) defines only `state_file` and `_state` (and `cli.py`
consistently reads `state._state`), so the lookup raises `AttributeError`.
Had it succeeded, the chained `.get("note_hashes", \x7b\x7d)` would have
produced the ledger map, whence the result type. -/
def stateManagerStateAttr : Except String (List (String × NoteEntry)) :=
  .error "AttributeError: StateManager object has no attribute state"

/-- The short-GUID resolution step of `process_repository`
(`processor.py:207-217`): when the extracted comment GUID is truthy and
shorter than 40 characters, the code first evaluates `state.state`, which
raises; the statements below the raise are modelled but unreachable.  When
the branch is not taken the block keeps the GUID `from_environment` gave it.
The raise propagates to the per-file `except Exception` handler
(`processor.py:249`), which records an error and drops the file. -/
def resolved_block_guid (envGuid : Option String) (blockGuid : String) :
    Except String String :=
  if pyTruthy envGuid && (envGuid.getD "").length < 40 then do
    let note_hashes ← stateManagerStateAttr
    let state_guids := note_hashes.map Prod.fst
    match match_short_guid_to_full (envGuid.getD "") state_guids with
    | some matched_full_guid => pure matched_full_guid
    | none => pure blockGuid
  else pure blockGuid

/-- One element of `blocks_with_meta` (`processor.py:273-285`). -/
structure BlockMeta where
  block : ExtractedBlock
  course : String
  priority : Nat
  deck : String
deriving DecidableEq, Repr

/-- One reconciliation decision (`processor.py:817-821`). -/
structure NoteAction where
  note : AnkiNote
  action : String
  block : ExtractedBlock
deriving DecidableEq, Repr

/-- The `except` handler of `_generate_cards_batch_with_llm`
(`processor.py:845-860`): basic mapping with `NoteMapper("", current_sha)`,
Create for unseen GUIDs and Skip for seen ones. -/
def batchFallback (blocks_with_meta : List BlockMeta) (st : CommitState)
    (current_sha : String) : List NoteAction :=
  blocks_with_meta.map (fun meta =>
    let note := NoteMapper.map_block ⟨"", current_sha⟩ meta.block meta.deck
    { note := note,
      action := if is_note_seen st note.guid then "skip" else "create",
      block := meta.block })

/-- Embedding of the `try`/`except` structure of
`_generate_cards_batch_with_llm` (`processor.py:774-860`): the body of the
`try` (assistant call, audit logging and response parsing) is an external
collaborator whose outcome — a decision list or any raised exception — is the
`tryResult` parameter; an exception selects the deterministic fallback. -/
def generate_cards_batch_with_llm (tryResult : Except String (List NoteAction))
    (blocks_with_meta : List BlockMeta) (st : CommitState) (current_sha : String) :
    List NoteAction :=
  match tryResult with
  | .ok r => r
  | .error _ => batchFallback blocks_with_meta st current_sha

/-! ## Supporting lemmas -/

theorem strData_append (s t : String) : (s ++ t).data = s.data ++ t.data := rfl

theorem strEq {s t : String} (h : s.data = t.data) : s = t := by
  cases s; cases t; exact congrArg String.mk h

theorem length_hexFixed (k n : Nat) : (hexFixed k n).length = k := by
  induction k generalizing n with
  | zero => rfl
  | succ k ih => simp [hexFixed, ih]

theorem hexDigitChar_lower : ∀ m, m < 16 → isLowerHex (hexDigitChar m) = true := by decide

theorem mem_hexFixed (k n : Nat) : ∀ c ∈ hexFixed k n, isLowerHex c = true := by
  induction k generalizing n with
  | zero => simp [hexFixed]
  | succ k ih =>
    intro c hc
    simp only [hexFixed] at hc
    rcases List.mem_append.mp hc with h1 | h2
    · exact ih (n / 16) c h1
    · have hce : c = hexDigitChar (n % 16) := by simpa using h2
      exact hce ▸ hexDigitChar_lower (n % 16) (Nat.mod_lt n (by norm_num))

theorem sha1Hex_length (msg : List Nat) : (sha1Hex msg).length = 40 := by
  simp [sha1Hex, String.length, length_hexFixed]

theorem sha1Hex_chars (msg : List Nat) : ∀ c ∈ (sha1Hex msg).data, isLowerHex c = true := by
  intro c hc
  simp only [sha1Hex, String.data, List.mem_append] at hc
  rcases hc with ((((h | h) | h) | h) | h) <;> exact mem_hexFixed 8 _ c h

theorem compute_guid_length (e b p : String) : (compute_guid e b p).length = 40 :=
  sha1Hex_length _

theorem guid_preimage_data (e b p : String) :
    (guid_preimage e b p).data = e.data ++ ('|' :: (b.data ++ ('|' :: p.data))) := by
  have hbar : ("|" : String).data = ['|'] := rfl
  simp [guid_preimage, strData_append, hbar]

theorem guid_preimage_ne_env {e e2 b p : String} (h : e ≠ e2) :
    guid_preimage e b p ≠ guid_preimage e2 b p := by
  intro heq
  apply h
  have hd := congrArg String.data heq
  rw [guid_preimage_data, guid_preimage_data] at hd
  exact strEq (List.append_cancel_right hd)

theorem guid_preimage_ne_body {e b b2 p : String} (h : b ≠ b2) :
    guid_preimage e b p ≠ guid_preimage e b2 p := by
  intro heq
  apply h
  have hd := congrArg String.data heq
  rw [guid_preimage_data, guid_preimage_data] at hd
  have h2 : b.data ++ ('|' :: p.data) = b2.data ++ ('|' :: p.data) := by
    simpa using List.append_cancel_left hd
  exact strEq (List.append_cancel_right h2)

theorem guid_preimage_ne_path {e b p p2 : String} (h : p ≠ p2) :
    guid_preimage e b p ≠ guid_preimage e b p2 := by
  intro heq
  apply h
  have hd := congrArg String.data heq
  rw [guid_preimage_data, guid_preimage_data] at hd
  have h2 : b.data ++ ('|' :: p.data) = b.data ++ ('|' :: p2.data) := by
    simpa using List.append_cancel_left hd
  have h3 : '|' :: p.data = '|' :: p2.data := List.append_cancel_left h2
  exact strEq (by simpa using h3)

theorem lookupKV_map_upd_self {l : List (String × NoteEntry)} {guid : String}
    {e : NoteEntry} (u : NoteEntry → NoteEntry) (h : lookupKV guid l = some e) :
    lookupKV guid (l.map (fun p => if p.1 = guid then (p.1, u p.2) else p)) = some (u e) := by
  induction l with
  | nil => simp [lookupKV] at h
  | cons p ps ih =>
    by_cases hp : p.1 = guid
    · simp only [lookupKV, if_pos hp, Option.some.injEq] at h
      simp [lookupKV, hp, h]
    · simp only [lookupKV, if_neg hp] at h
      simp [lookupKV, hp, ih h]

theorem lookupKV_map_upd_other {l : List (String × NoteEntry)} {guid g : String}
    (u : NoteEntry → NoteEntry) (hne : g ≠ guid) :
    lookupKV g (l.map (fun p => if p.1 = guid then (p.1, u p.2) else p)) = lookupKV g l := by
  induction l with
  | nil => rfl
  | cons p ps ih =>
    by_cases hp : p.1 = guid
    · have hgg : ¬(guid = g) := fun hh => hne hh.symm
      simp [lookupKV, hp, hgg, ih]
    · by_cases hg : p.1 = g
      · simp [lookupKV, hp, hg, hne]
      · simp [lookupKV, hp, hg, ih]

theorem lookupKV_append_some {β : Type} {l1 l2 : List (String × β)} {k : String} {v : β}
    (h : lookupKV k l1 = some v) : lookupKV k (l1 ++ l2) = some v := by
  induction l1 with
  | nil => simp [lookupKV] at h
  | cons p ps ih =>
    by_cases hp : p.1 = k
    · simp [lookupKV, hp] at h ⊢; exact h
    · simp [lookupKV, hp] at h ⊢; exact ih h

theorem lookupKV_append_none {β : Type} {l1 : List (String × β)} {k : String}
    (l2 : List (String × β)) (h : lookupKV k l1 = none) :
    lookupKV k (l1 ++ l2) = lookupKV k l2 := by
  induction l1 with
  | nil => rfl
  | cons p ps ih =>
    by_cases hp : p.1 = k
    · simp [lookupKV, hp] at h
    · simp [lookupKV, hp] at h ⊢; exact ih h

/-! ## Claim C1 -/

/-- Claim C1: `compute_guid` is deterministic (equal inputs give an equal
digest), its digest is 40 lowercase-hexadecimal characters (160 bits), and
changing exactly one of kind, normalised body, or file path while holding the
other two fixed changes the delimiter-joined pre-image string, hence changes
the identity barring a digest collision: equal digests for such inputs
constitute a collision of the SHA-1 string digest. -/
theorem c1_compute_guid_identity (e b p e2 b2 p2 : String)
    (he : e ≠ e2) (hb : b ≠ b2) (hp : p ≠ p2) :
    (∀ e3 b3 p3, e = e3 → b = b3 → p = p3 →
        compute_guid e b p = compute_guid e3 b3 p3)
    ∧ (compute_guid e b p).length = 40
    ∧ (∀ c ∈ (compute_guid e b p).data, isLowerHex c = true)
    ∧ guid_preimage e b p ≠ guid_preimage e2 b p
    ∧ guid_preimage e b p ≠ guid_preimage e b2 p
    ∧ guid_preimage e b p ≠ guid_preimage e b p2
    ∧ (compute_guid e b p = compute_guid e2 b p →
        Sha1Collision (guid_preimage e b p) (guid_preimage e2 b p))
    ∧ (compute_guid e b p = compute_guid e b2 p →
        Sha1Collision (guid_preimage e b p) (guid_preimage e b2 p))
    ∧ (compute_guid e b p = compute_guid e b p2 →
        Sha1Collision (guid_preimage e b p) (guid_preimage e b p2)) := by
  refine ⟨?_, compute_guid_length e b p, sha1Hex_chars _, guid_preimage_ne_env he,
    guid_preimage_ne_body hb, guid_preimage_ne_path hp, ?_, ?_, ?_⟩
  · intro e3 b3 p3 h1 h2 h3; rw [h1, h2, h3]
  · exact fun h => ⟨guid_preimage_ne_env he, h⟩
  · exact fun h => ⟨guid_preimage_ne_body hb, h⟩
  · exact fun h => ⟨guid_preimage_ne_path hp, h⟩

/-- Witness for C1 at concrete inputs. -/
theorem c1_compute_guid_identity_witness :
    guid_preimage "definition" "A" "f.tex" ≠ guid_preimage "theorem" "A" "f.tex"
    ∧ (compute_guid "definition" "A" "f.tex").length = 40 := by
  have h := c1_compute_guid_identity "definition" "A" "f.tex" "theorem" "B" "g.tex"
    (by decide) (by decide) (by decide)
  exact ⟨h.2.2.2.1, h.2.1⟩

/-! ## Claim C2 -/

/-- Claim C2: in the per-block (non-assisted) path, a block is classified
Create exactly when its GUID is absent from the ledger, Update exactly when
the GUID is present with a different stored content digest, and Skip exactly
when the GUID is present with the same stored digest. -/
theorem c2_per_block_classification (st : CommitState) (b : ExtractedBlock) :
    (basicAction st b.guid b.content_hash = "create" ↔
      lookupKV b.guid st.note_hashes = none)
    ∧ (basicAction st b.guid b.content_hash = "update" ↔
      ∃ e, lookupKV b.guid st.note_hashes = some e ∧ e.content_hash ≠ b.content_hash)
    ∧ (basicAction st b.guid b.content_hash = "skip" ↔
      ∃ e, lookupKV b.guid st.note_hashes = some e ∧ e.content_hash = b.content_hash) := by
  cases h : lookupKV b.guid st.note_hashes with
  | none =>
    have hb : basicAction st b.guid b.content_hash = "create" := by
      simp [basicAction, is_note_seen, h]
    rw [hb]
    exact ⟨iff_of_true rfl rfl, iff_of_false (by decide) (by simp),
      iff_of_false (by decide) (by simp)⟩
  | some e =>
    by_cases hc : e.content_hash = b.content_hash
    · have hb : basicAction st b.guid b.content_hash = "skip" := by
        simp [basicAction, is_note_seen, has_note_changed, h, hc]
      rw [hb]
      exact ⟨iff_of_false (by decide) (by simp),
        iff_of_false (by decide) (by simp [hc]),
        iff_of_true rfl ⟨e, rfl, hc⟩⟩
    · have hb : basicAction st b.guid b.content_hash = "update" := by
        simp [basicAction, is_note_seen, has_note_changed, h, hc]
      rw [hb]
      exact ⟨iff_of_false (by decide) (by simp),
        iff_of_true rfl ⟨e, rfl, hc⟩,
        iff_of_false (by decide) (by simp [hc])⟩

/-- Witness for C2 at a concrete ledger and block: a changed digest yields
Update, an unknown GUID yields Create. -/
theorem c2_per_block_classification_witness :
    basicAction ⟨none, [("g1", ⟨some 7, "D", "h1", "t0", "t0"⟩)], []⟩ "g1" "h2" = "update"
    ∧ basicAction ⟨none, [("g1", ⟨some 7, "D", "h1", "t0", "t0"⟩)], []⟩ "g9" "h1" = "create" := by
  constructor
  · exact (c2_per_block_classification ⟨none, [("g1", ⟨some 7, "D", "h1", "t0", "t0"⟩)], []⟩
      ⟨"definition", none, "", "", "f.tex", 1, "g1", "h2", "", none⟩).2.1.mpr
      ⟨⟨some 7, "D", "h1", "t0", "t0"⟩, by decide, by decide⟩

  · exact (c2_per_block_classification ⟨none, [("g1", ⟨some 7, "D", "h1", "t0", "t0"⟩)], []⟩
      ⟨"definition", none, "", "", "f.tex", 1, "g9", "h1", "", none⟩).1.mpr (by decide)

/-! ## Claim C10 -/

/-- Claim C10: `record_note` is frame-preserving.  For a known GUID it
rewrites only that GUID's entry — new external id, deck, digest and
`updated_at`, keeping the original `created_at` — leaving every other entry,
the cursor and the audit map unchanged and the entry count equal; for an
unknown GUID it appends exactly one entry whose `created_at` equals its
`updated_at`. -/
theorem c10_record_note_frame (st : CommitState) (guid : String) (id : Option Int)
    (deck hash now : String) :
    (∀ e, lookupKV guid st.note_hashes = some e →
      lookupKV guid (record_note st guid id deck hash now).note_hashes =
          some ⟨id, deck, hash, e.created_at, now⟩
      ∧ (∀ g, g ≠ guid →
          lookupKV g (record_note st guid id deck hash now).note_hashes =
            lookupKV g st.note_hashes)
      ∧ (record_note st guid id deck hash now).last_processed_sha = st.last_processed_sha
      ∧ (record_note st guid id deck hash now).llm_generations = st.llm_generations
      ∧ (record_note st guid id deck hash now).note_hashes.length = st.note_hashes.length)
    ∧ (lookupKV guid st.note_hashes = none →
      lookupKV guid (record_note st guid id deck hash now).note_hashes =
          some ⟨id, deck, hash, now, now⟩
      ∧ (∀ g, g ≠ guid →
          lookupKV g (record_note st guid id deck hash now).note_hashes =
            lookupKV g st.note_hashes)
      ∧ (record_note st guid id deck hash now).last_processed_sha = st.last_processed_sha
      ∧ (record_note st guid id deck hash now).llm_generations = st.llm_generations
      ∧ (record_note st guid id deck hash now).note_hashes.length =
          st.note_hashes.length + 1) := by
  constructor
  · intro e he
    have hs : (lookupKV guid st.note_hashes).isSome = true := by rw [he]; rfl
    have hrw : record_note st guid id deck hash now = { st with note_hashes := st.note_hashes.map (fun p => if p.1 = guid then (p.1, { p.2 with anki_note_id := id, deck := deck, content_hash := hash, updated_at := now }) else p) } := by
      simp only [record_note, hs, if_true]
    rw [hrw]
    refine ⟨?_, ?_, rfl, rfl, by simp⟩
    · exact lookupKV_map_upd_self (fun x => { x with anki_note_id := id, deck := deck, content_hash := hash, updated_at := now }) he
    · exact fun g hg => lookupKV_map_upd_other (fun x => { x with anki_note_id := id, deck := deck, content_hash := hash, updated_at := now }) hg
  · intro he
    have hs : (lookupKV guid st.note_hashes).isSome = false := by rw [he]; rfl
    have hrw : record_note st guid id deck hash now = { st with note_hashes := st.note_hashes ++ [(guid, ⟨id, deck, hash, now, now⟩)] } := by
      simp only [record_note, hs, Bool.false_eq_true, if_false]
    rw [hrw]
    refine ⟨?_, ?_, rfl, rfl, by simp⟩
    · rw [lookupKV_append_none _ he]; simp [lookupKV]
    · intro g hg
      cases hgl : lookupKV g st.note_hashes with
      | some v => exact lookupKV_append_some hgl
      | none =>
        have hgg : ¬(guid = g) := fun hh => hg hh.symm
        exact (lookupKV_append_none _ hgl).trans (by simp [lookupKV, hgg])

/-- Witness for C10: both branches applied to a concrete two-entry ledger. -/
theorem c10_record_note_frame_witness :
    lookupKV "g1" (record_note ⟨some "sha0", [("g1", ⟨none, "D", "h1", "c1", "u1"⟩),
        ("g2", ⟨some 3, "E", "h2", "c2", "u2"⟩)], []⟩ "g1" (some 9) "D2" "h9" "T").note_hashes
      = some ⟨some 9, "D2", "h9", "c1", "T"⟩
    ∧ lookupKV "g3" (record_note ⟨some "sha0", [("g1", ⟨none, "D", "h1", "c1", "u1"⟩)], []⟩
        "g3" none "D3" "h3" "T").note_hashes = some ⟨none, "D3", "h3", "T", "T"⟩ := by
  constructor
  · exact ((c10_record_note_frame ⟨some "sha0", [("g1", ⟨none, "D", "h1", "c1", "u1"⟩),
      ("g2", ⟨some 3, "E", "h2", "c2", "u2"⟩)], []⟩ "g1" (some 9) "D2" "h9" "T").1
      ⟨none, "D", "h1", "c1", "u1"⟩ (by decide)).1
  · exact ((c10_record_note_frame ⟨some "sha0", [("g1", ⟨none, "D", "h1", "c1", "u1"⟩)], []⟩
      "g3" none "D3" "h3" "T").2 (by decide)).1

/-! ## Claim C3 -/

/-- Claim C3 is false of the code: `normalize_tex` is not idempotent.  On an
input whose text contains the literal placeholder string `__MATH_BLOCK_1__`
next to a math span with interior double spaces, the restore loop substitutes
a later span into an earlier one; re-normalising the result collapses spaces
that the first pass had protected, so the second application differs from the
first. -/
theorem c3_normalize_tex_not_idempotent :
    normalize_tex "$a__MATH_BLOCK_1__b$ $  q$" = "$a$  q$b$ $  q$"
    ∧ normalize_tex (normalize_tex "$a__MATH_BLOCK_1__b$ $  q$") = "$a$ q$b$ $  q$"
    ∧ normalize_tex (normalize_tex "$a__MATH_BLOCK_1__b$ $  q$") ≠
        normalize_tex "$a__MATH_BLOCK_1__b$ $  q$" :=
  ⟨rfl, rfl, by decide⟩

/-! ## Claim C4 -/

/-- Claim C4 is false of the code: a protected math span is not always
restored verbatim.  On `"$a$$ b$$c$"` the `$$ b$$` display span is protected
first (block 0), the surrounding text then parses as a single inline span
whose saved content contains the block-0 placeholder, and the restore loop
(which processes indices in increasing order) never substitutes block 0 back:
the span's characters are lost and a bare placeholder remains in the
output. -/
theorem c4_math_span_not_preserved :
    mathBlocksOf "$a$$ b$$c$" = ["$$ b$$".data, "$a__MATH_BLOCK_0__c$".data]
    ∧ normalize_tex "$a$$ b$$c$" = "$a__MATH_BLOCK_0__c$"
    ∧ containsSeg "$$ b$$".data (normalize_tex "$a$$ b$$c$").data = false :=
  ⟨rfl, rfl, by decide⟩

/-! ## Claim C6 -/

/-- Counterexample to claim C6: a state file whose content is valid JSON but
not an object — here the number `42` — makes `_load` raise an uncaught
`TypeError` at `"note_hashes" not in state` instead of resetting to the
default structure. -/
theorem c6_load_raises_on_nonobject_json :
    stateLoad (.parsed (.num 42)) = .error .typeError := rfl

theorem stateLoad_obj (kvs : List (String × JValue)) :
    stateLoad (.parsed (.obj kvs)) =
      .ok (.obj (stage "llm_generations" (.obj [])
        (stage "last_processed_sha" .null (stage "note_hashes" (.obj []) kvs)))) := by
  have ne12 : ("note_hashes" : String) ≠ "last_processed_sha" := by decide
  have ne13 : ("note_hashes" : String) ≠ "llm_generations" := by decide
  have ne23 : ("last_processed_sha" : String) ≠ "llm_generations" := by decide
  simp only [stateLoad, pyIn, pySetItem, bind, Except.bind, pure, Except.pure, stage]
  by_cases h1 : kvs.any (fun p => p.1 = "note_hashes") = true
  · simp only [h1, if_true]
    by_cases h2 : kvs.any (fun p => p.1 = "last_processed_sha") = true
    · simp only [h2, if_true]
      by_cases h3 : kvs.any (fun p => p.1 = "llm_generations") = true
      · simp only [h3, if_true]
      · simp only [h3, if_false, Bool.false_eq_true]
    · simp only [h2, if_false, Bool.false_eq_true]
      by_cases h3 : kvs.any (fun p => p.1 = "llm_generations") = true
      · simp [List.any_append, h3, ne23, h1, h2]
      · simp [List.any_append, h3, ne23, h1, h2]
  · simp only [h1, if_false, Bool.false_eq_true]
    by_cases h2 : kvs.any (fun p => p.1 = "last_processed_sha") = true
    · by_cases h3 : kvs.any (fun p => p.1 = "llm_generations") = true
      · simp [List.any_append, h1, h2, h3, ne12, ne13, ne23]
      · simp [List.any_append, h1, h2, h3, ne12, ne13, ne23]
    · by_cases h3 : kvs.any (fun p => p.1 = "llm_generations") = true
      · simp [List.any_append, h1, h2, h3, ne12, ne13, ne23]
      · simp [List.any_append, h1, h2, h3, ne12, ne13, ne23]

theorem stage_lookup {kvs : List (String × JValue)} {k : String} {v : JValue}
    (key : String) (d : JValue) (h : lookupKV k kvs = some v) :
    lookupKV k (stage key d kvs) = some v := by
  unfold stage
  by_cases hs : kvs.any (fun p => p.1 = key) = true
  · rw [if_pos hs]; exact h
  · rw [if_neg hs]; exact lookupKV_append_some h

theorem stage_has_self (key : String) (d : JValue) (kvs : List (String × JValue)) :
    (stage key d kvs).any (fun p => p.1 = key) = true := by
  unfold stage
  by_cases hs : kvs.any (fun p => p.1 = key) = true
  · rw [if_pos hs]; exact hs
  · rw [if_neg hs]; simp [List.any_append]

theorem stage_mono (key : String) (d : JValue) {kvs : List (String × JValue)}
    {k2 : String} (h : kvs.any (fun p => p.1 = k2) = true) :
    (stage key d kvs).any (fun p => p.1 = k2) = true := by
  unfold stage
  by_cases hs : kvs.any (fun p => p.1 = key) = true
  · rw [if_pos hs]; exact h
  · rw [if_neg hs]; simp [List.any_append, h]

/-- Claim C6 (amended): `load()` never raises when the state file is missing,
unreadable, or not decodable as JSON — each of these resets to the empty
default structure — and a well-formed JSON object is returned with all three
required keys present and every stored binding preserved.  However (see the
counterexample) valid JSON that is not an object raises an uncaught
`TypeError`. -/
theorem c6_state_load_tolerant (r : ReadOutcome) (kvs : List (String × JValue)) :
    (r = .missing ∨ r = .ioError ∨ r = .decodeError → stateLoad r = .ok defaultState)
    ∧ ∃ kvs2, stateLoad (.parsed (.obj kvs)) = .ok (.obj kvs2)
        ∧ (∀ k v, lookupKV k kvs = some v → lookupKV k kvs2 = some v)
        ∧ kvs2.any (fun p => p.1 = "note_hashes") = true
        ∧ kvs2.any (fun p => p.1 = "last_processed_sha") = true
        ∧ kvs2.any (fun p => p.1 = "llm_generations") = true := by
  refine ⟨?_, _, stateLoad_obj kvs, ?_, ?_, ?_, ?_⟩
  · rintro (rfl | rfl | rfl) <;> rfl
  · exact fun k v h => stage_lookup _ _ (stage_lookup _ _ (stage_lookup _ _ h))
  · exact stage_mono _ _ (stage_mono _ _ (stage_has_self _ _ _))
  · exact stage_mono _ _ (stage_has_self _ _ _)
  · exact stage_has_self _ _ _

/-- Witness for the amended C6 at a concrete outcome and stored object. -/
theorem c6_state_load_tolerant_witness :
    stateLoad .missing = .ok defaultState
    ∧ ∃ kvs2, stateLoad (.parsed (.obj [("version", .str "0.1.0")])) = .ok (.obj kvs2)
        ∧ kvs2.any (fun p => p.1 = "note_hashes") = true := by
  have h := c6_state_load_tolerant .missing [("version", .str "0.1.0")]
  obtain ⟨h1, kvs2, h2, _, h4, _, _⟩ := h
  exact ⟨h1 (Or.inl rfl), kvs2, h2, h4⟩

/-! ## Claim C7 -/

/-- Claim C7: the matcher itself behaves as stated — a prefix matching
exactly one ledger identity resolves to it, zero or two matches give
`None` — but the processor step that should apply it never runs: whenever a
short comment GUID is present, evaluating `state.state` at
`processor.py:211` raises `AttributeError` (`StateManager` defines only
`_state`), the per-file `except Exception` handler records an error and
drops the block, so neither the unique-match resolution nor any
new-identity generation ever happens; without a short GUID the identity of
the block passes through unchanged. -/
theorem c7_short_guid_resolution :
    match_short_guid_to_full "abc123def456"
        ["abc123def4567890abcdef1234567890abcdef12",
         "def789abc1234567890def789abc1234567890de"] =
      some "abc123def4567890abcdef1234567890abcdef12"
    ∧ match_short_guid_to_full "abcdef123456" [] = none
    ∧ match_short_guid_to_full "ab"
        ["ab000000000000000000000000000000000000aa",
         "ab000000000000000000000000000000000000bb"] = none
    ∧ resolved_block_guid (some "abcdef123456")
        (compute_guid "definition" "A body" "notes.tex") =
      .error "AttributeError: StateManager object has no attribute state"
    ∧ (∀ envGuid blockGuid,
        (pyTruthy envGuid && (envGuid.getD "").length < 40) = true →
        resolved_block_guid envGuid blockGuid =
          .error "AttributeError: StateManager object has no attribute state")
    ∧ (∀ envGuid blockGuid,
        (pyTruthy envGuid && (envGuid.getD "").length < 40) = false →
        resolved_block_guid envGuid blockGuid = .ok blockGuid) := by
  refine ⟨by decide, rfl, by decide, rfl, ?_, ?_⟩
  · intro envGuid blockGuid hcond
    unfold resolved_block_guid
    rw [hcond]
    rfl
  · intro envGuid blockGuid hcond
    unfold resolved_block_guid
    rw [hcond]
    rfl

/-- Witness: the resolution step at concrete inputs — a present short GUID
raises, an absent one leaves the generated identity in place. -/
theorem c7_short_guid_resolution_witness :
    resolved_block_guid (some "ab") "G" =
      .error "AttributeError: StateManager object has no attribute state"
    ∧ resolved_block_guid none "G" = .ok "G" := by
  have h := c7_short_guid_resolution
  exact ⟨h.2.2.2.2.1 (some "ab") "G" (by decide), h.2.2.2.2.2 none "G" (by decide)⟩

/-! ## Claim C5 -/

theorem getD_map_of_lt {α β : Type} (f : α → β) (l : List α) (i : Nat) (d : β) (d2 : α)
    (h : i < l.length) : (l.map f).getD i d = f (l.getD i d2) := by
  induction l generalizing i with
  | nil => simp at h
  | cons a t ih =>
    cases i with
    | zero => rfl
    | succ j =>
      simp only [List.map_cons, List.getD_cons_succ]
      exact ih j (Nat.lt_of_succ_lt_succ h)

theorem map_block_guid (m : NoteMapper) (b : ExtractedBlock) (d : String) :
    (NoteMapper.map_block m b d).guid = b.guid := rfl

/-- Claim C5: if the batch assistant call raises, the Reconciler falls back to
the per-block path for every block in the batch: the decision list has one
decision per block; a block whose GUID is unknown to the ledger is classified
Create, a known one Skip, never Update; and each decision's note is exactly
the basic (non-assistant) mapping of that block, carrying the block's own
GUID — no assistant content enters. -/
theorem c5_batch_fallback_on_error (metas : List BlockMeta) (st : CommitState)
    (sha err : String) :
    (generate_cards_batch_with_llm (.error err) metas st sha).length = metas.length
    ∧ ∀ i, i < metas.length →
      (((generate_cards_batch_with_llm (.error err) metas st sha).getD i
          ⟨⟨"", "", "", "", "", [], ""⟩, "", ⟨"", none, "", "", "", 0, "", "", "", none⟩⟩).action
          = "create"
        ↔ is_note_seen st ((metas.getD i
            ⟨⟨"", none, "", "", "", 0, "", "", "", none⟩, "", 0, ""⟩).block.guid) = false)
      ∧ (((generate_cards_batch_with_llm (.error err) metas st sha).getD i
          ⟨⟨"", "", "", "", "", [], ""⟩, "", ⟨"", none, "", "", "", 0, "", "", "", none⟩⟩).action
          = "skip"
        ↔ is_note_seen st ((metas.getD i
            ⟨⟨"", none, "", "", "", 0, "", "", "", none⟩, "", 0, ""⟩).block.guid) = true)
      ∧ ((generate_cards_batch_with_llm (.error err) metas st sha).getD i
          ⟨⟨"", "", "", "", "", [], ""⟩, "", ⟨"", none, "", "", "", 0, "", "", "", none⟩⟩).action
          ≠ "update"
      ∧ ((generate_cards_batch_with_llm (.error err) metas st sha).getD i
          ⟨⟨"", "", "", "", "", [], ""⟩, "", ⟨"", none, "", "", "", 0, "", "", "", none⟩⟩).note
          = NoteMapper.map_block ⟨"", sha⟩
              ((metas.getD i ⟨⟨"", none, "", "", "", 0, "", "", "", none⟩, "", 0, ""⟩).block)
              ((metas.getD i ⟨⟨"", none, "", "", "", 0, "", "", "", none⟩, "", 0, ""⟩).deck)
      ∧ ((generate_cards_batch_with_llm (.error err) metas st sha).getD i
          ⟨⟨"", "", "", "", "", [], ""⟩, "", ⟨"", none, "", "", "", 0, "", "", "", none⟩⟩).note.guid
          = (metas.getD i ⟨⟨"", none, "", "", "", 0, "", "", "", none⟩, "", 0, ""⟩).block.guid
      ∧ ((generate_cards_batch_with_llm (.error err) metas st sha).getD i
          ⟨⟨"", "", "", "", "", [], ""⟩, "", ⟨"", none, "", "", "", 0, "", "", "", none⟩⟩).block
          = (metas.getD i ⟨⟨"", none, "", "", "", 0, "", "", "", none⟩, "", 0, ""⟩).block := by
  constructor
  · simp [generate_cards_batch_with_llm, batchFallback]
  · intro i hi
    have hg : (generate_cards_batch_with_llm (.error err) metas st sha).getD i
        ⟨⟨"", "", "", "", "", [], ""⟩, "", ⟨"", none, "", "", "", 0, "", "", "", none⟩⟩ =
        (fun meta => ({ note := NoteMapper.map_block ⟨"", sha⟩ meta.block meta.deck
                        action := if is_note_seen st (NoteMapper.map_block ⟨"", sha⟩ meta.block meta.deck).guid then "skip" else "create"
                        block := meta.block } : NoteAction))
          (metas.getD i ⟨⟨"", none, "", "", "", 0, "", "", "", none⟩, "", 0, ""⟩) :=
      getD_map_of_lt _ metas i _ _ hi
    have hact : ((generate_cards_batch_with_llm (.error err) metas st sha).getD i
        ⟨⟨"", "", "", "", "", [], ""⟩, "", ⟨"", none, "", "", "", 0, "", "", "", none⟩⟩).action =
        (if is_note_seen st ((metas.getD i
            ⟨⟨"", none, "", "", "", 0, "", "", "", none⟩, "", 0, ""⟩).block.guid)
          then "skip" else "create") :=
      congrArg NoteAction.action hg
    have hnote : ((generate_cards_batch_with_llm (.error err) metas st sha).getD i
        ⟨⟨"", "", "", "", "", [], ""⟩, "", ⟨"", none, "", "", "", 0, "", "", "", none⟩⟩).note =
        NoteMapper.map_block ⟨"", sha⟩
          ((metas.getD i ⟨⟨"", none, "", "", "", 0, "", "", "", none⟩, "", 0, ""⟩).block)
          ((metas.getD i ⟨⟨"", none, "", "", "", 0, "", "", "", none⟩, "", 0, ""⟩).deck) :=
      congrArg NoteAction.note hg
    have hblock : ((generate_cards_batch_with_llm (.error err) metas st sha).getD i
        ⟨⟨"", "", "", "", "", [], ""⟩, "", ⟨"", none, "", "", "", 0, "", "", "", none⟩⟩).block =
        (metas.getD i ⟨⟨"", none, "", "", "", 0, "", "", "", none⟩, "", 0, ""⟩).block :=
      congrArg NoteAction.block hg
    refine ⟨?_, ?_, ?_, hnote, by rw [hnote]; rfl, hblock⟩
    · by_cases hseen : is_note_seen st
          ((metas.getD i ⟨⟨"", none, "", "", "", 0, "", "", "", none⟩, "", 0, ""⟩).block.guid) = true
      · rw [hact, if_pos hseen]
        exact iff_of_false (by decide) (by simp only [hseen]; decide)
      · rw [hact, if_neg hseen]
        exact iff_of_true rfl (by simpa using hseen)
    · by_cases hseen : is_note_seen st
          ((metas.getD i ⟨⟨"", none, "", "", "", 0, "", "", "", none⟩, "", 0, ""⟩).block.guid) = true
      · rw [hact, if_pos hseen]
        exact iff_of_true rfl hseen
      · rw [hact, if_neg hseen]
        exact iff_of_false (by decide) hseen
    · by_cases hseen : is_note_seen st
          ((metas.getD i ⟨⟨"", none, "", "", "", 0, "", "", "", none⟩, "", 0, ""⟩).block.guid) = true
      · rw [hact, if_pos hseen]; decide
      · rw [hact, if_neg hseen]; decide

/-- Witness for C5: a concrete one-known one-unknown batch. -/
theorem c5_batch_fallback_on_error_witness :
    ((generate_cards_batch_with_llm (.error "boom")
        [⟨⟨"definition", none, "B.", "B.", "f.tex", 3, "g1", "h1", "r", none⟩, "c", 1, "Deck"⟩,
         ⟨⟨"theorem", none, "C.", "C.", "f.tex", 9, "g2", "h2", "r", none⟩, "c", 1, "Deck"⟩]
        ⟨none, [("g1", ⟨none, "Deck", "h1", "t", "t"⟩)], []⟩ "sha").getD 0
        ⟨⟨"", "", "", "", "", [], ""⟩, "", ⟨"", none, "", "", "", 0, "", "", "", none⟩⟩).action
      = "skip"
    ∧ ((generate_cards_batch_with_llm (.error "boom")
        [⟨⟨"definition", none, "B.", "B.", "f.tex", 3, "g1", "h1", "r", none⟩, "c", 1, "Deck"⟩,
         ⟨⟨"theorem", none, "C.", "C.", "f.tex", 9, "g2", "h2", "r", none⟩, "c", 1, "Deck"⟩]
        ⟨none, [("g1", ⟨none, "Deck", "h1", "t", "t"⟩)], []⟩ "sha").getD 1
        ⟨⟨"", "", "", "", "", [], ""⟩, "", ⟨"", none, "", "", "", 0, "", "", "", none⟩⟩).action
      = "create" := by
  have h := c5_batch_fallback_on_error
    [⟨⟨"definition", none, "B.", "B.", "f.tex", 3, "g1", "h1", "r", none⟩, "c", 1, "Deck"⟩,
     ⟨⟨"theorem", none, "C.", "C.", "f.tex", 9, "g2", "h2", "r", none⟩, "c", 1, "Deck"⟩]
    ⟨none, [("g1", ⟨none, "Deck", "h1", "t", "t"⟩)], []⟩ "sha" "boom"
  exact ⟨((h.2 0 (by decide)).2.1).mpr (by decide), ((h.2 1 (by decide)).1).mpr (by decide)⟩

/-! ## Claim C9 -/

theorem splitNl_ne_nil (s : List Char) : splitNl s ≠ [] := by
  induction s with
  | nil => simp [splitNl]
  | cons c cs ih =>
    by_cases hc : c = '\n'
    · simp [splitNl, hc]
    · cases h : splitNl cs with
      | nil => simp [splitNl, hc, h]
      | cons l ls => simp [splitNl, hc, h]

theorem splitNl_no_nl (s : List Char) : ∀ l ∈ splitNl s, '\n' ∉ l := by
  induction s with
  | nil =>
    intro l hl
    simp [splitNl] at hl
    simp [hl]
  | cons c cs ih =>
    intro l hl
    by_cases hc : c = '\n'
    · simp only [splitNl, hc, if_true] at hl
      rcases List.mem_cons.mp hl with rfl | hl2
      · simp
      · exact ih l hl2
    · cases h : splitNl cs with
      | nil => exact absurd h (splitNl_ne_nil cs)
      | cons hd tl =>
        simp only [splitNl, hc, if_false] at hl
        rw [h] at hl
        rcases List.mem_cons.mp hl with rfl | hl2
        · have hhd := ih hd (by rw [h]; exact List.mem_cons_self _ _)
          intro hmem
          rcases List.mem_cons.mp hmem with he | hm
          · exact hc he.symm
          · exact hhd hm
        · exact ih l (by rw [h]; exact List.mem_cons_of_mem _ hl2)

theorem splitNl_single (l : List Char) (h : '\n' ∉ l) : splitNl l = [l] := by
  induction l with
  | nil => rfl
  | cons c cs ih =>
    have hc : ¬(c = '\n') := fun hh => h (by rw [hh]; exact List.mem_cons_self _ _)
    have hcs : '\n' ∉ cs := fun hh => h (List.mem_cons_of_mem _ hh)
    simp [splitNl, hc, ih hcs]

theorem splitNl_append_nl (l r : List Char) (h : '\n' ∉ l) :
    splitNl (l ++ '\n' :: r) = l :: splitNl r := by
  induction l with
  | nil => simp [splitNl]
  | cons c cs ih =>
    have hc : ¬(c = '\n') := fun hh => h (by rw [hh]; exact List.mem_cons_self _ _)
    have hcs : '\n' ∉ cs := fun hh => h (List.mem_cons_of_mem _ hh)
    simp [splitNl, hc, ih hcs]

theorem splitNl_joinNl (L : List (List Char)) (hne : L ≠ [])
    (h : ∀ l ∈ L, '\n' ∉ l) : splitNl (joinNl L) = L := by
  induction L with
  | nil => exact absurd rfl hne
  | cons l ls ih =>
    cases ls with
    | nil => simpa [joinNl] using splitNl_single l (h l (List.mem_cons_self _ _))
    | cons l2 ls2 =>
      have hj : joinNl (l :: l2 :: ls2) = l ++ '\n' :: joinNl (l2 :: ls2) := rfl
      rw [hj, splitNl_append_nl l _ (h l (List.mem_cons_self _ _))]
      rw [ih (by simp) (fun x hx => h x (List.mem_cons_of_mem _ hx))]

theorem blankLine_no_nl (l : List Char) (h : '\n' ∉ l) : '\n' ∉ blankLine l := by
  unfold blankLine
  split
  · simp
  · exact h

theorem blankLine_idem (l : List Char) : blankLine (blankLine l) = blankLine l := by
  unfold blankLine
  split
  · rfl
  · rfl

theorem blankComments_idem (s : List Char) :
    blankComments (blankComments s) = blankComments s := by
  show joinNl ((splitNl (blankComments s)).map blankLine) = blankComments s
  have hsplit : splitNl (blankComments s) = (splitNl s).map blankLine := by
    apply splitNl_joinNl
    · intro hmap
      exact splitNl_ne_nil s (List.map_eq_nil_iff.mp hmap)
    · intro l hl
      rcases List.mem_map.mp hl with ⟨x, hx, rfl⟩
      exact blankLine_no_nl x (splitNl_no_nl s x hx)
  rw [hsplit, List.map_map]
  show joinNl ((splitNl s).map (blankLine ∘ blankLine)) = joinNl ((splitNl s).map blankLine)
  congr 1
  exact List.map_congr_left (fun x _ => blankLine_idem x)

theorem mapBlank_replicate (L : List (List Char))
    (h : ∀ l ∈ L, leadsWith ['%'] (pyLstrip l) = true) :
    L.map blankLine = List.replicate L.length [] := by
  induction L with
  | nil => rfl
  | cons l ls ih =>
    have hl : blankLine l = [] := by
      unfold blankLine
      rw [if_pos (h l (List.mem_cons_self _ _))]
    simp [List.replicate_succ, hl, ih (fun x hx => h x (List.mem_cons_of_mem _ hx))]

theorem joinNl_replicate (k : Nat) :
    joinNl (List.replicate k ([] : List Char)) = List.replicate (k - 1) '\n' := by
  induction k with
  | zero => rfl
  | succ n ih =>
    cases n with
    | zero => rfl
    | succ m =>
      have h1 : List.replicate (m + 2) ([] : List Char) =
          [] :: List.replicate (m + 1) [] := rfl
      have h2 : joinNl (([] : List Char) :: List.replicate (m + 1) []) =
          '\n' :: joinNl (List.replicate (m + 1) []) := by
        rw [show List.replicate (m + 1) ([] : List Char) = [] :: List.replicate m [] from rfl]
        rfl
      rw [h1, h2, ih]
      rfl

theorem leadsWith_beginTok_nl (x : List Char) : leadsWith beginTok ('\n' :: x) = false := by
  have hb : beginTok = '\\' :: "begin\x7b".data := rfl
  have hne : (('\\' : Char) = '\n') = False := by simp
  rw [hb]
  simp [leadsWith, hne]

theorem scanEnvs_replicate (names : List (List Char)) (fuel : Nat) :
    ∀ nl m, scanEnvs names fuel nl (List.replicate m '\n') = [] := by
  induction fuel with
  | zero => intro nl m; rfl
  | succ f ih =>
    intro nl m
    cases m with
    | zero => rfl
    | succ m2 =>
      rw [List.replicate_succ]
      have hnone : envMatchAt names ('\n' :: List.replicate m2 '\n') = none := by
        unfold envMatchAt
        rw [leadsWith_beginTok_nl]
        simp
      simp [scanEnvs, hnone, ih]

/-- Claim C9: the comment-blanking pass preserves the line count; a file all
of whose lines are comment-prefixed yields zero extracted blocks, whatever
`begin`/`end` pairs those comments contain; and extraction of a file whose
lines are `A ++ C ++ B` with every line of `C` commented equals extraction of
the file with `C` replaced by equally many empty lines — so every other
block, including its start/end line numbers, is unaffected by the presence of
the commented lines. -/
theorem c9_commented_blocks_invisible (names : List (List Char)) :
    (∀ s : List Char, (splitNl (blankComments s)).length = (splitNl s).length)
    ∧ (∀ s : List Char, (∀ l ∈ splitNl s, leadsWith ['%'] (pyLstrip l) = true) →
        extract_environments s names = [])
    ∧ (∀ A C B : List (List Char), (∀ l ∈ A ++ C ++ B, '\n' ∉ l) →
        (∀ l ∈ C, leadsWith ['%'] (pyLstrip l) = true) → C ≠ [] →
        extract_environments (joinNl (A ++ C ++ B)) names =
          extract_environments (joinNl (A ++ List.replicate C.length [] ++ B)) names) := by
  have hsplitmap : ∀ s : List Char, splitNl (blankComments s) = (splitNl s).map blankLine := by
    intro s
    apply splitNl_joinNl
    · intro hmap
      exact splitNl_ne_nil s (List.map_eq_nil_iff.mp hmap)
    · intro l hl
      rcases List.mem_map.mp hl with ⟨x, hx, rfl⟩
      exact blankLine_no_nl x (splitNl_no_nl s x hx)
  refine ⟨?_, ?_, ?_⟩
  · intro s
    rw [hsplitmap s, List.length_map]
  · intro s hall
    unfold extract_environments
    by_cases hn : names = []
    · rw [if_pos hn]
    · rw [if_neg hn]
      have hclean : blankComments s = List.replicate ((splitNl s).length - 1) '\n' := by
        unfold blankComments
        rw [mapBlank_replicate (splitNl s) hall, joinNl_replicate]
      rw [hclean]
      unfold extractFromCleaned
      rw [scanEnvs_replicate]
      rfl
  · intro A C B hnl hcom hCne
    have hCn : C.length ≠ 0 := fun hh => hCne (List.length_eq_zero.mp hh)
    have hne1 : A ++ C ++ B ≠ [] := by
      intro hh
      rcases List.append_eq_nil.mp hh with ⟨hh1, hh3⟩
      rcases List.append_eq_nil.mp hh1 with ⟨_, hh2⟩
      exact hCne hh2
    have hne2 : A ++ List.replicate C.length [] ++ B ≠ [] := by
      intro hh
      rcases List.append_eq_nil.mp hh with ⟨hh1, hh3⟩
      rcases List.append_eq_nil.mp hh1 with ⟨_, hh2⟩
      exact hCn (by simpa using congrArg List.length hh2)
    have hnl2 : ∀ l ∈ A ++ List.replicate C.length ([] : List Char) ++ B, '\n' ∉ l := by
      intro l hl
      rcases List.mem_append.mp hl with hl1 | hl3
      · rcases List.mem_append.mp hl1 with hlA | hlR
        · exact hnl l (by simp [hlA])
        · rw [List.eq_of_mem_replicate hlR]; simp
      · exact hnl l (by simp [hl3])
    have hclean : blankComments (joinNl (A ++ C ++ B)) =
        blankComments (joinNl (A ++ List.replicate C.length [] ++ B)) := by
      unfold blankComments
      rw [splitNl_joinNl _ hne1 hnl, splitNl_joinNl _ hne2 hnl2]
      have hmapC : C.map blankLine = List.replicate C.length [] := mapBlank_replicate C hcom
      have hmapR : (List.replicate C.length ([] : List Char)).map blankLine =
          List.replicate C.length [] := by
        rw [List.map_replicate]; rfl
      simp [List.map_append, hmapC, hmapR]
    unfold extract_environments
    by_cases hn : names = []
    · simp [hn]
    · rw [if_neg hn, if_neg hn, hclean]

/-- Witness for C9 at concrete files: an all-commented environment yields no
blocks, and blanking a commented region leaves the rest of the extraction,
line numbers included, unchanged. -/
theorem c9_commented_blocks_invisible_witness :
    (splitNl (blankComments "% a\nx".data)).length = (splitNl "% a\nx".data).length
    ∧ extract_environments
        "% \\begin\x7bdefinition\x7d\n% x\n% \\end\x7bdefinition\x7d".data
        ["definition".data] = []
    ∧ extract_environments (joinNl (["pre".data] ++
        ["% \\begin\x7bdefinition\x7d".data, "% \\end\x7bdefinition\x7d".data] ++
        ["post".data])) ["definition".data] =
      extract_environments (joinNl (["pre".data] ++
        List.replicate (["% \\begin\x7bdefinition\x7d".data,
          "% \\end\x7bdefinition\x7d".data] : List (List Char)).length [] ++
        ["post".data])) ["definition".data] := by
  have h := c9_commented_blocks_invisible ["definition".data]
  exact ⟨h.1 _, h.2.1 _ (by decide), h.2.2 _ _ _ (by decide) (by decide) (by decide)⟩

/-! ## Claim C8 -/

theorem takeWhileAll (p : Char → Bool) (l : List Char) (h : ∀ c ∈ l, p c = true) :
    l.takeWhile p = l := by
  induction l with
  | nil => rfl
  | cons a t ih =>
    rw [List.takeWhile_cons, if_pos (h a (List.mem_cons_self _ _))]
    rw [ih (fun c hc => h c (List.mem_cons_of_mem _ hc))]

theorem ws_not_hex (c : Char) (h : pyWs c = true) : isHexCi c = false := by
  simp only [pyWs, Bool.or_eq_true, decide_eq_true_eq] at h
  rcases h with ((((h | h) | h) | h) | h) | h <;> subst h <;> decide

theorem hex_not_ws (c : Char) (h : isHexCi c = true) : pyWs c = false := by
  cases hw : pyWs c
  · rfl
  · rw [ws_not_hex c hw] at h
    exact absurd h (by decide)

/-- The GUID-comment pattern matches a freshly written marker line exactly:
group 1 is the prefix through the colon and space, the capture is the whole
12-character hex short GUID, and nothing follows. -/
theorem matchGuidAt_marker (h : List Char) (hhex : ∀ c ∈ h, isHexCi c = true)
    (hlen : h.length = 12) :
    matchGuidAt (markerComment h) = some ("% anki-tex-guid: ".data, h, []) := by
  obtain ⟨c0, h2, rfl⟩ : ∃ c0 h2, h = c0 :: h2 := by
    cases h with
    | nil => simp at hlen
    | cons a t => exact ⟨a, t, rfl⟩
  have hm : markerComment (c0 :: h2) = '%' :: (" anki-tex-guid: ".data ++ (c0 :: h2)) := rfl
  have htw0 : List.takeWhile pyWs (c0 :: h2) = [] := by
    rw [List.takeWhile_cons, if_neg]
    rw [hex_not_ws c0 (hhex c0 (List.mem_cons_self _ _))]
    decide
  have hhexrun : List.takeWhile isHexCi (c0 :: h2) = c0 :: h2 := takeWhileAll _ _ hhex
  have htk : List.take 40 (c0 :: h2) = c0 :: h2 :=
    List.take_of_length_le (by rw [hlen]; norm_num)
  have hci1 : leadsWithCi ['a', 'n', 'k', 'i', '-', 't', 'e', 'x', '-']
      ('a' :: 'n' :: 'k' :: 'i' :: '-' :: 't' :: 'e' :: 'x' :: '-' :: 'g' :: 'u' :: 'i'
        :: 'd' :: ':' :: ' ' :: c0 :: h2) = true := rfl
  have hci2 : leadsWithCi ['g', 'u', 'i', 'd', ':']
      ('g' :: 'u' :: 'i' :: 'd' :: ':' :: ' ' :: c0 :: h2) = true := rfl
  rw [hm]
  simp only [matchGuidAt]
  simp +decide [List.cons_append, List.nil_append, List.takeWhile_cons, List.drop_succ_cons,
    List.drop_zero, List.take_succ_cons, List.take_zero, List.length_cons, List.length_nil,
    htw0, hhexrun, htk, hlen, List.drop_length, hci1, hci2]
  simp only [List.length_cons] at hlen
  omega

theorem applyGuidSub_nil (t : SubTemplate) (f : Nat) : applyGuidSub t f [] = [] := by
  cases f <;> rfl

theorem guidSearchB_marker (h : List Char) (hhex : ∀ c ∈ h, isHexCi c = true)
    (hlen : h.length = 12) : guidSearchB (markerComment h) = true := by
  have hme : matchGuidAt ('%' :: (" anki-tex-guid: ".data ++ h)) =
      some ("% anki-tex-guid: ".data, h, []) := matchGuidAt_marker h hhex hlen
  show (guidSearchCapture (markerComment h)).isSome = true
  rw [show markerComment h = '%' :: (" anki-tex-guid: ".data ++ h) from rfl]
  simp only [guidSearchCapture, hme]
  rfl

/-- Rewriting a freshly written marker line through a group-1 template whose
literal part is its own short GUID is the identity. -/
theorem applyGuidSub_group1_marker (h : List Char) (hhex : ∀ c ∈ h, isHexCi c = true)
    (hlen : h.length = 12) (fuel : Nat) :
    applyGuidSub (.group1Then h) (fuel + 1) (markerComment h) = markerComment h := by
  have hme : matchGuidAt ('%' :: (" anki-tex-guid: ".data ++ h)) =
      some ("% anki-tex-guid: ".data, h, []) := matchGuidAt_marker h hhex hlen
  rw [show markerComment h = '%' :: (" anki-tex-guid: ".data ++ h) from rfl]
  simp only [applyGuidSub, hme, applyGuidSub_nil]
  rw [List.append_nil]
  rfl

/-- An octal-escape template collapses the whole marker line to the escape
character followed by the literal tail of the template. -/
theorem applyGuidSub_octal_marker (h : List Char) (hhex : ∀ c ∈ h, isHexCi c = true)
    (hlen : h.length = 12) (fuel : Nat) (ch : Char) (lit : List Char) :
    applyGuidSub (.octalThen ch lit) (fuel + 1) (markerComment h) = ch :: lit := by
  have hme : matchGuidAt ('%' :: (" anki-tex-guid: ".data ++ h)) =
      some ("% anki-tex-guid: ".data, h, []) := matchGuidAt_marker h hhex hlen
  rw [show markerComment h = '%' :: (" anki-tex-guid: ".data ++ h) from rfl]
  simp only [applyGuidSub, hme, applyGuidSub_nil]
  rw [List.append_nil]

theorem findMarkerIdxBack_none (ctx : List (List Char))
    (h : ∀ l ∈ ctx, guidSearchB l = false) : findMarkerIdxBack ctx = none := by
  induction ctx with
  | nil => rfl
  | cons l ls ih =>
    simp only [findMarkerIdxBack, ih (fun x hx => h x (List.mem_cons_of_mem _ hx))]
    rw [h l (List.mem_cons_self _ _)]
    rfl

theorem findMarkerIdxBack_append_marker (W : List (List Char)) (m : List Char)
    (hW : ∀ l ∈ W, guidSearchB l = false) (hm : guidSearchB m = true) :
    findMarkerIdxBack (W ++ [m]) = some W.length := by
  induction W with
  | nil => simp [findMarkerIdxBack, hm]
  | cons w ws ih =>
    rw [show (w :: ws) ++ [m] = w :: (ws ++ [m]) from rfl]
    simp only [findMarkerIdxBack]
    rw [ih (fun x hx => hW x (List.mem_cons_of_mem _ hx))]
    rfl

theorem getD_append_cons {α : Type} (A : List α) (x : α) (B : List α) (d : α) :
    (A ++ x :: B).getD A.length d = x := by
  induction A with
  | nil => rfl
  | cons a t ih => simpa using ih

theorem insertAt_length (L : List (List Char)) (i : Nat) (x : List Char)
    (h : i ≤ L.length) : (insertAt L i x).length = L.length + 1 := by
  simp [insertAt]
  omega

/-- Counterexample to claim C8 as stated: calling the injection twice with
the same file, line number and identity inserts a second marker line.  The
first call's marker sits at the target index itself, outside the backward
window `lines[target-20:target]`, so the second call does not find it. -/
theorem c8_double_inject_same_line_duplicates :
    inject_guid_comment
        ["\\begin\x7bdefinition\x7d".data, "x".data, "\\end\x7bdefinition\x7d".data]
        1 "abcdef1234567890abcdef1234567890abcdef12".data =
      .ok ⟨["% anki-tex-guid: abcdef123456".data, "\\begin\x7bdefinition\x7d".data,
        "x".data, "\\end\x7bdefinition\x7d".data], true⟩
    ∧ inject_guid_comment
        ["% anki-tex-guid: abcdef123456".data, "\\begin\x7bdefinition\x7d".data,
          "x".data, "\\end\x7bdefinition\x7d".data]
        1 "abcdef1234567890abcdef1234567890abcdef12".data =
      .ok ⟨["% anki-tex-guid: abcdef123456".data, "% anki-tex-guid: abcdef123456".data,
        "\\begin\x7bdefinition\x7d".data, "x".data, "\\end\x7bdefinition\x7d".data], true⟩
    ∧ countMarkerLines ["% anki-tex-guid: abcdef123456".data,
        "% anki-tex-guid: abcdef123456".data, "\\begin\x7bdefinition\x7d".data,
        "x".data, "\\end\x7bdefinition\x7d".data] = 2
    ∧ countMarkerLines ["% anki-tex-guid: abcdef123456".data,
        "\\begin\x7bdefinition\x7d".data, "x".data, "\\end\x7bdefinition\x7d".data] = 1 :=
  ⟨rfl, rfl, by decide, by decide⟩

/-- Claim C8 (amended): injecting a marker for a block whose ≤20-line window
holds no marker inserts exactly one marker comment line; a second call for
the same block — whose start line is now one greater, as re-extraction
reports — finds that marker in the backward window and takes the update
path, which returns before the file write-back, so however it ends the file
is unchanged and no duplicate marker line is produced: with a letter-leading
short GUID the marker is rewritten to the identical line and `False` is
returned; with a digit-leading one the replacement template is read as a
two-digit group reference (raising `re.error`) or, when the second character
is octal as well, as an octal escape that corrupts only the discarded
in-memory line while `True` is returned.  With the stale (un-shifted) line
number a duplicate does occur (see the counterexample). -/
theorem c8_inject_idempotent_amended (L : List (List Char)) (n : Nat) (g : List Char)
    (hn1 : 1 ≤ n) (hn2 : n ≤ L.length)
    (hg : ∀ c ∈ g, isHexCi c = true) (hglen : g.length = 40)
    (hw : ∀ l ∈ (L.take (n-1)).drop (n-1-20), guidSearchB l = false) :
    inject_guid_comment L n g = .ok ⟨insertAt L (n-1) (markerComment (g.take 12)), true⟩
    ∧ countMarkerLines (insertAt L (n-1) (markerComment (g.take 12))) =
        countMarkerLines L + 1
    ∧ (∀ r, inject_guid_comment (insertAt L (n-1) (markerComment (g.take 12))) (n+1) g =
          .ok r → r.lines = insertAt L (n-1) (markerComment (g.take 12)))
    ∧ (∀ c0 t, g = c0 :: t → c0.isDigit = false →
        inject_guid_comment (insertAt L (n-1) (markerComment (g.take 12))) (n+1) g =
          .ok ⟨insertAt L (n-1) (markerComment (g.take 12)), false⟩)
    ∧ (∀ c0 c1 t, g = c0 :: c1 :: t → c0.isDigit = true →
        (isOctalDigit c0 && isOctalDigit c1) = false →
        inject_guid_comment (insertAt L (n-1) (markerComment (g.take 12))) (n+1) g =
          .error "re.error: invalid group reference")
    ∧ (∀ c0 c1 t, g = c0 :: c1 :: t → c0.isDigit = true →
        (isOctalDigit c0 && isOctalDigit c1) = true →
        inject_guid_comment (insertAt L (n-1) (markerComment (g.take 12))) (n+1) g =
          .ok ⟨insertAt L (n-1) (markerComment (g.take 12)), true⟩) := by
  have hs_hex : ∀ c ∈ g.take 12, isHexCi c = true :=
    fun c hc => hg c (List.take_subset _ _ hc)
  have hs_len : (g.take 12).length = 12 := by rw [List.length_take, hglen]; decide
  have hlt : (L.take (n-1)).length = n - 1 := by rw [List.length_take]; omega
  have hL2len : (insertAt L (n-1) (markerComment (g.take 12))).length = L.length + 1 :=
    insertAt_length L (n-1) _ (by omega)
  have hcond2 : (decide (n + 1 < 1) ||
      decide ((insertAt L (n-1) (markerComment (g.take 12))).length < n + 1)) = false := by
    simp only [Bool.or_eq_false_iff, decide_eq_false_iff_not]
    rw [hL2len]
    omega
  have hT : (insertAt L (n-1) (markerComment (g.take 12))).take n =
      L.take (n-1) ++ [markerComment (g.take 12)] := by
    show (L.take (n-1) ++ markerComment (g.take 12) :: L.drop (n-1)).take n = _
    rw [List.take_append_eq_append_take, hlt]
    rw [List.take_of_length_le (by rw [hlt]; omega)]
    rw [show n - (n-1) = 1 from by omega]
    rfl
  have hW2 : ∀ l ∈ (L.take (n-1)).drop (n-20), guidSearchB l = false := by
    intro l hl
    have hdd : (L.take (n-1)).drop (n-20) =
        ((L.take (n-1)).drop (n-1-20)).drop ((n-20)-(n-1-20)) := by
      rw [List.drop_drop]
      congr 1
      omega
    rw [hdd] at hl
    exact hw l (List.drop_subset _ _ hl)
  have hlen_drop : ((L.take (n-1)).drop (n-20)).length = (n-1) - (n-20) := by
    rw [List.length_drop, hlt]
  have hfind : findMarkerIdxBack
      (((insertAt L (n-1) (markerComment (g.take 12))).take n).drop (n - 20)) =
      some ((n-1) - (n-20)) := by
    rw [hT, List.drop_append_eq_append_drop, hlt,
      show n - 20 - (n-1) = 0 from by omega, List.drop_zero]
    rw [findMarkerIdxBack_append_marker _ _ hW2 (guidSearchB_marker _ hs_hex hs_len)]
    rw [hlen_drop]
  have hact : n - 20 + ((n-1) - (n - 20)) = n - 1 := by omega
  have hgetd : (insertAt L (n-1) (markerComment (g.take 12))).getD (n-1) [] =
      markerComment (g.take 12) := by
    have h0 := getD_append_cons (L.take (n-1)) (markerComment (g.take 12)) (L.drop (n-1)) []
    rw [hlt] at h0
    exact h0
  have hmlen : (markerComment (g.take 12)).length = 28 + 1 := by
    simp [markerComment, hs_len]
  refine ⟨?_, ?_, ?_, ?_, ?_, ?_⟩
  · have hcond1 : (decide (n < 1) || decide (L.length < n)) = false := by
      simp only [Bool.or_eq_false_iff, decide_eq_false_iff_not]
      omega
    simp only [inject_guid_comment, hcond1, Bool.false_eq_true, if_false]
    rw [findMarkerIdxBack_none _ hw]
  · show (List.filter guidSearchB (insertAt L (n-1) (markerComment (g.take 12)))).length =
        (List.filter guidSearchB L).length + 1
    conv_rhs => rw [← List.take_append_drop (n-1) L]
    rw [show insertAt L (n-1) (markerComment (g.take 12)) =
        L.take (n-1) ++ markerComment (g.take 12) :: L.drop (n-1) from rfl]
    rw [List.filter_append, List.filter_append, List.filter_cons]
    rw [guidSearchB_marker _ hs_hex hs_len]
    simp [List.length_append]
    omega
  · intro r hr
    simp only [inject_guid_comment, hcond2, Bool.false_eq_true, if_false,
      Nat.add_sub_cancel] at hr
    rw [hfind] at hr
    simp only [hact, hgetd, hmlen, guidSubLine] at hr
    cases hps : parseSubTemplate (g.take 12) with
    | error e =>
      rw [hps] at hr
      exact Except.noConfusion hr
    | ok t =>
      simp only [hps] at hr
      split at hr
      · rw [← Except.ok.inj hr]
      · rw [← Except.ok.inj hr]
  · intro c0 t hgeq hdig
    have hshort : g.take 12 = c0 :: t.take 11 := by rw [hgeq]; rfl
    have hps : parseSubTemplate (g.take 12) = .ok (.group1Then (g.take 12)) := by
      rw [hshort]
      simp [parseSubTemplate, hdig]
    have hsub : guidSubLine (g.take 12) (28+1) (markerComment (g.take 12)) =
        .ok (markerComment (g.take 12)) := by
      simp only [guidSubLine, hps]
      rw [applyGuidSub_group1_marker _ hs_hex hs_len 28]
    simp only [inject_guid_comment, hcond2, Bool.false_eq_true, if_false, Nat.add_sub_cancel]
    rw [hfind]
    simp only [hact, hgetd, hmlen, hsub]
    rw [if_neg (fun hh => hh rfl)]
  · intro c0 c1 t hgeq hdig hoct
    have hshort : g.take 12 = c0 :: c1 :: t.take 10 := by rw [hgeq]; rfl
    have hps : parseSubTemplate (g.take 12) = .error "re.error: invalid group reference" := by
      rw [hshort]
      simp [parseSubTemplate, hdig, hoct]
    have hsub : guidSubLine (g.take 12) (28+1) (markerComment (g.take 12)) =
        .error "re.error: invalid group reference" := by
      simp only [guidSubLine, hps]
    simp only [inject_guid_comment, hcond2, Bool.false_eq_true, if_false, Nat.add_sub_cancel]
    rw [hfind]
    simp only [hact, hgetd, hmlen, hsub]
  · intro c0 c1 t hgeq hdig hoct
    have hshort : g.take 12 = c0 :: c1 :: t.take 10 := by rw [hgeq]; rfl
    have hps : parseSubTemplate (g.take 12) =
        .ok (.octalThen (Char.ofNat (64 + 8 * (c0.toNat - 48) + (c1.toNat - 48)))
          (t.take 10)) := by
      rw [hshort]
      simp [parseSubTemplate, hdig, hoct]
    have hsub : guidSubLine (g.take 12) (28+1) (markerComment (g.take 12)) =
        .ok (Char.ofNat (64 + 8 * (c0.toNat - 48) + (c1.toNat - 48)) :: t.take 10) := by
      simp only [guidSubLine, hps]
      rw [applyGuidSub_octal_marker _ hs_hex hs_len 28]
    have h40 := hglen
    rw [hgeq] at h40
    simp only [List.length_cons] at h40
    have hne : markerComment (g.take 12) ≠
        Char.ofNat (64 + 8 * (c0.toNat - 48) + (c1.toNat - 48)) :: t.take 10 := by
      intro he
      have hlen2 := congrArg List.length he
      rw [hmlen] at hlen2
      simp only [List.length_cons, List.length_take] at hlen2
      omega
    simp only [inject_guid_comment, hcond2, Bool.false_eq_true, if_false, Nat.add_sub_cancel]
    rw [hfind]
    simp only [hact, hgetd, hmlen, hsub]
    rw [if_pos hne]

/-- Witness for the amended C8 at a concrete file and a letter-leading
identity. -/
theorem c8_inject_idempotent_amended_witness :
    inject_guid_comment (insertAt
        ["\\begin\x7bdefinition\x7d".data, "x".data, "\\end\x7bdefinition\x7d".data] 0
        (markerComment ("abcdef1234567890abcdef1234567890abcdef12".data.take 12))) 2
        "abcdef1234567890abcdef1234567890abcdef12".data =
      .ok ⟨insertAt ["\\begin\x7bdefinition\x7d".data, "x".data,
        "\\end\x7bdefinition\x7d".data] 0
        (markerComment ("abcdef1234567890abcdef1234567890abcdef12".data.take 12)), false⟩
    ∧ countMarkerLines (insertAt
        ["\\begin\x7bdefinition\x7d".data, "x".data, "\\end\x7bdefinition\x7d".data] 0
        (markerComment ("abcdef1234567890abcdef1234567890abcdef12".data.take 12))) =
      countMarkerLines
        ["\\begin\x7bdefinition\x7d".data, "x".data, "\\end\x7bdefinition\x7d".data] + 1 := by
  have h := c8_inject_idempotent_amended
    ["\\begin\x7bdefinition\x7d".data, "x".data, "\\end\x7bdefinition\x7d".data] 1
    "abcdef1234567890abcdef1234567890abcdef12".data
    (by decide) (by decide) (by decide) (by decide) (by decide)
  exact ⟨h.2.2.2.1 'a' "bcdef1234567890abcdef1234567890abcdef12".data rfl (by decide),
    h.2.1⟩

end Commit
